import Mathlib

set_option autoImplicit false

/-!
Verification development for the WordPress local-install provisioning tool.

The TypeScript sources are shallowly embedded: each service method becomes a
Lean function over explicit state (`World` for the filesystem and database
server, `RollbackState` for the rollback ledger, `DatabaseConfig` for the
driver's connection settings).  JavaScript strings are modelled as Lean
`String`s (the inputs of interest are ASCII, where `String.length` and the
UTF-16 `.length` agree); JavaScript regular expressions used by the sources
are modelled character by character, including the `lastIndex` state of the
one global-flag regex (`SHELL_DANGEROUS_CHARS`).
-/

namespace WpLocal

/-! ## JS character and string primitives -/

/-- Whitespace recognised by `String.prototype.trim` and `\s`
(ASCII subset: space, tab, LF, CR, VT, FF; the sources only meet ASCII). -/
def isJsWs (c : Char) : Bool :=
  c = ' ' || c = '\t' || c = '\n' || c = '\r' || c.toNat = 11 || c.toNat = 12

def isAsciiUpper (c : Char) : Bool := 'A' ≤ c && c ≤ 'Z'
def isAsciiLower (c : Char) : Bool := 'a' ≤ c && c ≤ 'z'
def isAsciiAlpha (c : Char) : Bool := isAsciiUpper c || isAsciiLower c
def isAsciiDigit (c : Char) : Bool := '0' ≤ c && c ≤ '9'
def isAsciiAlnum (c : Char) : Bool := isAsciiAlpha c || isAsciiDigit c

/-- Model of `toLowerCase` on the ASCII range. -/
def jsLowerChar (c : Char) : Char :=
  if isAsciiUpper c then Char.ofNat (c.toNat + 32) else c

def jsLower (s : String) : String := ⟨s.data.map jsLowerChar⟩

/-- Model of `String.prototype.trim`. -/
def jsTrim (s : String) : String :=
  ⟨((s.data.dropWhile isJsWs).reverse.dropWhile isJsWs).reverse⟩

/-- Does the character list contain two consecutive dots (`".."`)? -/
def hasDotDot : List Char → Bool
  | [] => false
  | [_] => false
  | c :: d :: rest => (c = '.' && d = '.') || hasDotDot (d :: rest)

/-! ## Validator (utils/validator.ts)

`SHELL_DANGEROUS_CHARS = /[;&|`$(){}[\]<>!#*?\\'"]/g` is declared with the
global flag, so `test()` reads and writes the regex's `lastIndex`.  All
functions touching it take and return that `lastIndex`. -/

/-- The character class of `SHELL_DANGEROUS_CHARS`. -/
def isShellDangerous (c : Char) : Bool :=
  c = ';' || c = '&' || c = '|' || c = Char.ofNat 96 || c = '$' ||
  c = '(' || c = ')' || c = Char.ofNat 123 || c = Char.ofNat 125 ||
  c = '[' || c = ']' || c = '<' || c = '>' || c = '!' || c = '#' ||
  c = '*' || c = '?' || c = '\\' || c = Char.ofNat 39 || c = Char.ofNat 34

/-- Model of `regex.test(s)` for a global regex consisting of one character class:
scan for a match from `lastIndex`; on a hit return `true` and set
`lastIndex` past the match, on a miss return `false` and reset it to `0`. -/
def shellTest (s : String) (lastIndex : Nat) : Bool × Nat :=
  match (s.data.drop lastIndex).findIdx? isShellDangerous with
  | some i => (true, lastIndex + i + 1)
  | none => (false, 0)

structure ValidationResult where
  valid : Bool
  error : Option String := none
  sanitized : Option String := none
deriving Repr, DecidableEq

/-- Model of `PROJECT_NAME_PATTERN = /^[a-zA-Z][a-zA-Z0-9_-]{0,63}$/`. -/
def projectNamePattern (s : String) : Bool :=
  match s.data with
  | [] => false
  | c :: rest =>
      isAsciiAlpha c && rest.length ≤ 63 &&
        rest.all (fun d => isAsciiAlnum d || d = '_' || d = '-')

/-- Model of `DATABASE_NAME_PATTERN = /^[a-zA-Z_][a-zA-Z0-9_]{0,63}$/`. -/
def databaseNamePattern (s : String) : Bool :=
  match s.data with
  | [] => false
  | c :: rest =>
      (isAsciiAlpha c || c = '_') && rest.length ≤ 63 &&
        rest.all (fun d => isAsciiAlnum d || d = '_')

/-- Model of `PATH_PATTERN = /^[a-zA-Z0-9_\-./\\: ]+$/`. -/
def pathPattern (s : String) : Bool :=
  !s.data.isEmpty &&
    s.data.all (fun c =>
      isAsciiAlnum c || c = '_' || c = '-' || c = '.' || c = '/' ||
        c = '\\' || c = ':' || c = ' ')

def reservedProjectNames : List String :=
  ["con", "prn", "aux", "nul", "com1", "com2", "com3", "lpt1", "lpt2", "lpt3"]

def mysqlReservedNames : List String :=
  ["mysql", "information_schema", "performance_schema", "sys", "test"]

/-- Model of `Validator.validateProjectName`. -/
def validateProjectName (name : String) : ValidationResult :=
  if name = "" then
    ⟨false, some "Le nom du projet est requis", none⟩
  else
    let trimmed := jsTrim name
    if trimmed = "" then
      ⟨false, some "Le nom du projet ne peut pas être vide", none⟩
    else if trimmed.length > 64 then
      ⟨false, some "Le nom du projet ne peut pas dépasser 64 caractères", none⟩
    else if !projectNamePattern trimmed then
      ⟨false, some "Le nom du projet doit commencer par une lettre et ne contenir que des lettres, chiffres, tirets et underscores", none⟩
    else if reservedProjectNames.contains (jsLower trimmed) then
      ⟨false, some "Ce nom est réservé par le système", none⟩
    else
      ⟨true, none, some trimmed⟩

/-- Model of `Validator.validateDatabaseName`. -/
def validateDatabaseName (name : String) : ValidationResult :=
  if name = "" then
    ⟨false, some "Le nom de la base de données est requis", none⟩
  else
    let trimmed := jsTrim name
    if trimmed = "" then
      ⟨false, some "Le nom de la base de données ne peut pas être vide", none⟩
    else if trimmed.length > 64 then
      ⟨false, some "Le nom de la base de données ne peut pas dépasser 64 caractères", none⟩
    else if !databaseNamePattern trimmed then
      ⟨false, some "Le nom de la base de données doit commencer par une lettre ou underscore et ne contenir que des lettres, chiffres et underscores", none⟩
    else if mysqlReservedNames.contains (jsLower trimmed) then
      ⟨false, some "Ce nom est réservé par MySQL", none⟩
    else
      ⟨true, none, some trimmed⟩

/-- Model of `Validator.validatePath`; threads the `lastIndex` of the shared
global-flag regex `SHELL_DANGEROUS_CHARS`. -/
def validatePath (filePath : String) (lastIndex : Nat) : ValidationResult × Nat :=
  if filePath = "" then
    (⟨false, some "Le chemin est requis", none⟩, lastIndex)
  else
    let trimmed := jsTrim filePath
    if trimmed = "" then
      (⟨false, some "Le chemin ne peut pas être vide", none⟩, lastIndex)
    else if trimmed.length > 4096 then
      (⟨false, some "Le chemin est trop long", none⟩, lastIndex)
    else if hasDotDot trimmed.data then
      (⟨false, some "Les chemins relatifs avec \x22..\x22 ne sont pas autorisés", none⟩, lastIndex)
    else
      let (hit, li) := shellTest trimmed lastIndex
      if hit then
        (⟨false, some "Le chemin contient des caractères non autorisés", none⟩, li)
      else if !pathPattern trimmed then
        (⟨false, some "Le format du chemin est invalide", none⟩, li)
      else
        (⟨true, none, some trimmed⟩, li)

def isHostMidChar (c : Char) : Bool := isAsciiAlnum c || c = '.' || c = '-'

/-- Host regex of `validateDatabaseConfig`:
`/^[a-zA-Z0-9][a-zA-Z0-9.-]{0,253}[a-zA-Z0-9]$|^[a-zA-Z0-9]$|^localhost$/`. -/
def hostPattern (s : String) : Bool :=
  s = "localhost" ||
    match s.data with
    | [] => false
    | [c] => isAsciiAlnum c
    | c :: rest =>
        let mid := rest.dropLast
        isAsciiAlnum c && mid.length ≤ 253 && mid.all isHostMidChar &&
          (match rest.getLast? with
           | some d => isAsciiAlnum d
           | none => false)

def isControlChar (c : Char) : Bool := c.toNat ≤ 31 || c.toNat = 127

structure DatabaseConfig where
  host : String
  port : Nat
  user : String
  password : String
deriving Repr, DecidableEq

/-- Model of `Validator.validateDatabaseConfig` applied to a full config
(the pipeline always passes all four fields); threads `lastIndex` of
`SHELL_DANGEROUS_CHARS`, which it uses on the user name. -/
def validateDatabaseConfig (c : DatabaseConfig) (lastIndex : Nat) :
    ValidationResult × Nat :=
  if !hostPattern c.host then
    (⟨false, some "Format d\x27hôte invalide", none⟩, lastIndex)
  else if !(1 ≤ c.port && c.port ≤ 65535) then
    (⟨false, some "Le port doit être un nombre entre 1 et 65535", none⟩, lastIndex)
  else if c.user.length > 32 then
    (⟨false, some "Le nom d\x27utilisateur est invalide", none⟩, lastIndex)
  else
    let (hit, li) := shellTest c.user lastIndex
    if hit then
      (⟨false, some "Le nom d\x27utilisateur contient des caractères non autorisés", none⟩, li)
    else if c.password.data.any isControlChar then
      (⟨false, some "Le mot de passe contient des caractères invalides", none⟩, li)
    else
      (⟨true, none, none⟩, li)

/-! ## VhostService (services/vhostService.ts) -/

def isUnderscoreOrWs (c : Char) : Bool := c = '_' || isJsWs c

/-- Model of `replace(/[_\s]+/g, '-')`: each maximal run of underscores/whitespace
becomes a single hyphen.  The flag records being inside such a run. -/
def collapseUwsAux : Bool → List Char → List Char
  | _, [] => []
  | inRun, c :: rest =>
      if isUnderscoreOrWs c then
        if inRun then collapseUwsAux true rest
        else '-' :: collapseUwsAux true rest
      else c :: collapseUwsAux false rest

/-- The class kept by `replace(/[^a-z0-9-]/g, '')`. -/
def keepDomainChar (c : Char) : Bool := isAsciiLower c || isAsciiDigit c || c = '-'

/-- Model of `VhostService.getSuggestedServerName`. -/
def getSuggestedServerName (projectName : String) : String :=
  ⟨(collapseUwsAux false (projectName.data.map jsLowerChar)).filter keepDomainChar⟩
    ++ ".local"

/-- Model of `VhostService.generateVhostConfig` with the default port 80. -/
def generateVhostConfig (projectName projectPath serverName : String) : String :=
  "<VirtualHost *:80>\n    ServerName " ++ serverName ++
  "\n    ServerAlias www." ++ serverName ++
  "\n    DocumentRoot \x22" ++ projectPath ++
  "\x22\n\n    <Directory \x22" ++ projectPath ++
  "\x22>\n        Options Indexes FollowSymLinks\n        AllowOverride All\n        Require all granted\n    </Directory>\n\n    ErrorLog \x22$\x7bAPACHE_LOG_DIR\x7d/" ++
  projectName ++
  "-error.log\x22\n    CustomLog \x22$\x7bAPACHE_LOG_DIR\x7d/" ++ projectName ++
  "-access.log\x22 combined\n</VirtualHost>"

/-- Model of `VhostService.generateHostsEntry`. -/
def generateHostsEntry (serverName : String) : String :=
  "127.0.0.1    " ++ serverName ++ "\n127.0.0.1    www." ++ serverName

/-! ## PathHelper (utils/pathHelper.ts), POSIX behaviour (`path.sep = '/'`) -/

def isSepChar (c : Char) : Bool := c = '/' || c = '\\'

/-- Model of `replace(/[\\/]+/g, path.sep)`: each run of separators becomes one `/`. -/
def collapseSepsAux : Bool → List Char → List Char
  | _, [] => []
  | inRun, c :: rest =>
      if isSepChar c then
        if inRun then collapseSepsAux true rest
        else '/' :: collapseSepsAux true rest
      else c :: collapseSepsAux false rest

/-- Model of `String.startsWith`, computed structurally on the character lists. -/
def strStartsWith (s pre : String) : Bool := pre.data.isPrefixOf s.data

/-- Model of `String.splitOn "/"`, computed structurally. -/
def splitOnSlashAux : List Char → List Char → List String
  | acc, [] => [⟨acc.reverse⟩]
  | acc, c :: rest =>
      if c = '/' then ⟨acc.reverse⟩ :: splitOnSlashAux [] rest
      else splitOnSlashAux (c :: acc) rest

def splitOnSlash (s : String) : List String := splitOnSlashAux [] s.data

/-- Model of `String.intercalate "/"`, computed structurally. -/
def joinSlash : List String → String
  | [] => ""
  | [x] => x
  | x :: y :: rest => x ++ "/" ++ joinSlash (y :: rest)

/-- One segment step of Node's `path.posix.normalize` (stack grows to the left). -/
def normStep (abs : Bool) (stack : List String) (seg : String) : List String :=
  if seg = "." then stack
  else if seg = ".." then
    match stack with
    | [] => if abs then [] else [".."]
    | top :: rest => if top = ".." then ".." :: top :: rest else rest
  else seg :: stack

/-- Node `path.posix.normalize` on a string whose separator runs are already
collapsed. -/
def posixNormalize (s : String) : String :=
  if s = "" then "."
  else
    let abs := strStartsWith s "/"
    let trail := s.data.getLast? = some '/'
    let segs := (splitOnSlash s).filter (fun seg => seg != "")
    let stack := (segs.foldl (normStep abs) []).reverse
    let body := joinSlash stack
    if abs then
      if body = "" then "/" else "/" ++ body ++ (if trail then "/" else "")
    else
      if body = "" then (if trail then "./" else ".")
      else body ++ (if trail then "/" else "")

/-- Model of `PathHelper.normalize`. -/
def pathHelperNormalize (filePath : String) : String :=
  if filePath = "" then ""
  else posixNormalize ⟨collapseSepsAux false filePath.data⟩

/-- Model of `path.join(a, b)` for the clean absolute inputs the pipeline builds. -/
def pathJoin (a b : String) : String := a ++ "/" ++ b

/-! ## The external world

The filesystem and the database server, as far as the embedded services
observe them: a set of directory paths, a set of file paths, a set of
existing database names, and which connection configurations the MySQL
server accepts. -/

structure World where
  dirs : List String
  files : List String
  databases : List String
  dbReachable : DatabaseConfig → Bool

/-- Model of `PathHelper.exists` / `fs.pathExists`. -/
def pathExists (w : World) (p : String) : Bool :=
  w.dirs.contains p || w.files.contains p

/-- Model of `fs.remove p`: recursive removal of the path and everything below it. -/
def removeTree (w : World) (p : String) : World :=
  { w with
    dirs := w.dirs.filter (fun d => !(d == p || strStartsWith d (p ++ "/"))),
    files := w.files.filter (fun f => !(f == p || strStartsWith f (p ++ "/"))) }

/-! ## RollbackService (services/rollbackService.ts) -/

inductive ActionType
  | directory
  | database
  | file
deriving Repr, DecidableEq

structure ActionData where
  path : Option String := none
  databaseName : Option String := none
  dbConfig : Option DatabaseConfig := none
deriving Repr, DecidableEq

structure RollbackAction where
  type : ActionType
  description : String
  data : ActionData
deriving Repr, DecidableEq

structure RollbackState where
  actions : List RollbackAction := []
  isRollingBack : Bool := false
deriving Repr, DecidableEq

def mkDirectoryAction (dirPath : String) : RollbackAction :=
  ⟨.directory, "Supprimer le répertoire: " ++ dirPath, { path := some dirPath }⟩

def mkDatabaseAction (databaseName : String) (dbConfig : DatabaseConfig) : RollbackAction :=
  ⟨.database, "Supprimer la base de données: " ++ databaseName,
    { databaseName := some databaseName, dbConfig := some dbConfig }⟩

def mkFileAction (filePath : String) : RollbackAction :=
  ⟨.file, "Supprimer le fichier: " ++ filePath, { path := some filePath }⟩

/-- Model of `RollbackService.registerDirectoryCreation`. -/
def registerDirectoryCreation (st : RollbackState) (dirPath : String) : RollbackState :=
  if st.isRollingBack then st
  else { st with actions := st.actions ++ [mkDirectoryAction dirPath] }

/-- Model of `RollbackService.registerDatabaseCreation`. -/
def registerDatabaseCreation (st : RollbackState) (databaseName : String)
    (dbConfig : DatabaseConfig) : RollbackState :=
  if st.isRollingBack then st
  else { st with actions := st.actions ++ [mkDatabaseAction databaseName dbConfig] }

/-- Model of `RollbackService.registerFileCreation`. -/
def registerFileCreation (st : RollbackState) (filePath : String) : RollbackState :=
  if st.isRollingBack then st
  else { st with actions := st.actions ++ [mkFileAction filePath] }

/-- Model of `RollbackService.clear()`. -/
def clearActions (st : RollbackState) : RollbackState :=
  { st with actions := [] }

def safeRootPaths (home : String) : List String := ["/tmp", "/home", "/opt", home]

/-- Stand-in for the message of a failed `mysql.createConnection`. -/
def connFailureMsg : String := "connect ECONNREFUSED"

/-- Model of `RollbackService.rollbackDirectory` (`home` is `process.env.HOME`). -/
def rollbackDirectory (home : String) (w : World) (dirPath : Option String) :
    Except String World :=
  match dirPath with
  | none => .error "Chemin du répertoire non spécifié"
  | some p =>
    if p = "" then .error "Chemin du répertoire non spécifié"
    else if !pathExists w p then .ok w
    else
      let normalized := pathHelperNormalize p
      let isSafe := (safeRootPaths home).any
        (fun safe => safe != "" && strStartsWith normalized (pathHelperNormalize safe))
      if !isSafe then
        .error ("Suppression non autorisée pour des raisons de sécurité: " ++ p)
      else .ok (removeTree w p)

def systemDatabases : List String :=
  ["mysql", "information_schema", "performance_schema", "sys"]

/-- The local `/^[a-zA-Z_][a-zA-Z0-9_]*$/` check inside `rollbackDatabase`. -/
def rollbackDbNamePattern (s : String) : Bool :=
  match s.data with
  | [] => false
  | c :: rest =>
      (isAsciiAlpha c || c = '_') && rest.all (fun d => isAsciiAlnum d || d = '_')

/-- Model of `RollbackService.rollbackDatabase`: reconnects with the snapshotted
config carried by the action, then drops the database if it still exists. -/
def rollbackDatabase (w : World) (databaseName : Option String)
    (dbConfig : Option DatabaseConfig) : Except String World :=
  match databaseName with
  | none => .error "Nom de la base de données non spécifié"
  | some n =>
    if n = "" then .error "Nom de la base de données non spécifié"
    else if !rollbackDbNamePattern n then .error "Nom de base de données invalide"
    else if systemDatabases.contains (jsLower n) then
      .error ("Impossible de supprimer la base de données système: " ++ n)
    else
      match dbConfig with
      | none => .error connFailureMsg
      | some c =>
        if !w.dbReachable c then .error connFailureMsg
        else if !w.databases.contains n then .ok w
        else .ok { w with databases := w.databases.filter (fun d => d != n) }

/-- Model of `RollbackService.rollbackFile`. -/
def rollbackFile (w : World) (filePath : Option String) : Except String World :=
  match filePath with
  | none => .error "Chemin du fichier non spécifié"
  | some p =>
    if p = "" then .error "Chemin du fichier non spécifié"
    else if !pathExists w p then .ok w
    else .ok (removeTree w p)

/-- Model of `RollbackService.executeAction`. -/
def executeAction (home : String) (w : World) (a : RollbackAction) :
    Except String World :=
  match a.type with
  | .directory => rollbackDirectory home w a.data.path
  | .database => rollbackDatabase w a.data.databaseName a.data.dbConfig
  | .file => rollbackFile w a.data.path

structure RollbackResult where
  success : Bool
  errors : List String
deriving Repr, DecidableEq

/-- The loop of `execute()`: attempt each action in the given order, catch
per-action failures into an error list, and also record the attempt order. -/
def rollbackRun (home : String) :
    World → List RollbackAction → World × List String × List RollbackAction
  | w, [] => (w, [], [])
  | w, a :: rest =>
    match executeAction home w a with
    | .ok w1 =>
        let (w2, errs, tr) := rollbackRun home w1 rest
        (w2, errs, a :: tr)
    | .error msg =>
        let (w2, errs, tr) := rollbackRun home w rest
        (w2, (a.description ++ ": " ++ msg) :: errs, a :: tr)

/-- Model of `RollbackService.execute()`: empty ledger returns success immediately;
otherwise the recorded actions are attempted in reverse registration order
and the ledger is emptied.  Also returns the attempt trace. -/
def rollbackExecute (home : String) (w : World) (st : RollbackState) :
    World × RollbackState × RollbackResult × List RollbackAction :=
  if st.actions.isEmpty then (w, st, ⟨true, []⟩, [])
  else
    let (w1, errs, tr) := rollbackRun home w st.actions.reverse
    (w1, ⟨[], false⟩, ⟨errs.isEmpty, errs⟩, tr)

/-! ## MySQLDriver (services/drivers/MySQLDriver.ts), no pool -/

structure ServiceResult where
  success : Bool
  message : Option String := none
  databaseName : Option String := none
  vhostConfig : Option String := none
  hostsEntry : Option String := none
  serverName : Option String := none
deriving Repr, DecidableEq

/-- Model of `MySQLDriver.createDatabase`: validates the name, rejects an existing
database, otherwise creates it; connection and query errors are re-thrown
wrapped in a single message. -/
def mysqlCreateDatabase (cfg : DatabaseConfig) (w : World) (databaseName : String) :
    Except String (World × ServiceResult) :=
  let validation := validateDatabaseName databaseName
  if !validation.valid then .error (validation.error.getD "")
  else if !w.dbReachable cfg then
    .error ("Erreur lors de la création de la base de données: " ++ connFailureMsg)
  else if w.databases.contains databaseName then
    .error ("Erreur lors de la création de la base de données: La base de données \x27" ++
      databaseName ++ "\x27 existe déjà")
  else
    .ok ({ w with databases := databaseName :: w.databases },
      { success := true, databaseName := some databaseName })

/-- Model of `MySQLDriver.databaseExists`. -/
def mysqlDatabaseExists (cfg : DatabaseConfig) (w : World) (databaseName : String) :
    Except String Bool :=
  if !w.dbReachable cfg then
    .error ("Erreur lors de la vérification de la base de données: " ++ connFailureMsg)
  else .ok (w.databases.contains databaseName)

/-- Model of `MySQLDriver.dropDatabase`: refuses protected system names, treats an
absent database as success. -/
def mysqlDropDatabase (cfg : DatabaseConfig) (w : World) (databaseName : String) :
    Except String (World × ServiceResult) :=
  let validation := validateDatabaseName databaseName
  if !validation.valid then .error (validation.error.getD "")
  else if systemDatabases.contains (jsLower databaseName) then
    .error ("Impossible de supprimer la base de données système: " ++ databaseName)
  else if !w.dbReachable cfg then
    .error ("Erreur lors de la suppression de la base de données: " ++ connFailureMsg)
  else if !w.databases.contains databaseName then
    .ok (w, { success := true, message := some "Base de données inexistante" })
  else
    .ok ({ w with databases := w.databases.filter (fun d => d != databaseName) },
      { success := true, databaseName := some databaseName })

/-- Model of `MySQLDriver.getConfig` returns a by-value copy of the current config. -/
def mysqlGetConfig (cfg : DatabaseConfig) : DatabaseConfig := cfg

/-- Model of `MySQLDriver.setConfig`: re-validates, then merges; merging a full
config replaces every field.  Throws on an invalid config.  Threads the
`lastIndex` of `SHELL_DANGEROUS_CHARS` used on the user name. -/
def mysqlSetConfig (_cfg newCfg : DatabaseConfig) (lastIndex : Nat) :
    Except String (DatabaseConfig × Nat) :=
  let (v, li) := validateDatabaseConfig newCfg lastIndex
  if !v.valid then .error (v.error.getD "")
  else .ok (newCfg, li)

/-! ## ExtractService batch summary (extractService.ts)

Per-archive outcomes are abstracted to their success booleans; the batch
reports success when at least one archive installed. -/

def extractBatchResult (kind : String) (outcomes : List Bool) : ServiceResult :=
  let successCount := (outcomes.filter id).length
  let failedCount := outcomes.length - successCount
  { success := decide (0 < successCount),
    message := some (toString successCount ++ " " ++ kind ++ "(s) installé(s), " ++
      toString failedCount ++ " échec(s)") }

/-! ## The provisioning pipeline (main.ts, `generate-wordpress` handler) -/

structure GenerateWordPressData where
  projectName : String
  databaseName : String
  destinationPath : String
  themesPath : Option String := none
  pluginsPath : Option String := none
  serverName : Option String := none
  dbConfig : Option DatabaseConfig := none
deriving Repr, DecidableEq

structure StatusUpdate where
  step : String
  message : String
  success : Option Bool := none
deriving Repr, DecidableEq

inductive StepTag
  | copy
  | configure
  | createDb
  | installThemes
  | installPlugins
  | setPermissions
  | emitVhost
deriving Repr, DecidableEq

/-- Behaviour of the external collaborators during one run.  `cancelAt k`
is the value of the global `currentOperationCanceled` flag at the k-th
`checkCanceled()` call of the run. -/
structure StepEnv where
  home : String
  cancelAt : Nat → Bool
  copyOk : Bool
  copyErr : String
  configOk : Bool
  configErr : String
  themesOutcome : Except String ServiceResult
  pluginsOutcome : Except String ServiceResult
  permsSuccess : Bool
  permsMsg : Option String

/-- JS `if (x)` on an optional string: `undefined` and `""` are falsy. -/
def jsTruthy : Option String → Bool
  | none => false
  | some s => s != ""

/-- JS `a || b` on an optional string. -/
def jsOrElse (a : Option String) (b : String) : String :=
  match a with
  | some s => if s = "" then b else s
  | none => b

def cancelErrMsg : String := "Opération annulée par l\x27utilisateur"

/-- The mutable run state threaded through the `try` block: world, rollback
ledger, bookkeeping of started/completed steps, number of `checkCanceled`
reads, and the emitted status updates. -/
structure RunState where
  w : World
  rb : RollbackState
  started : List StepTag
  completed : List StepTag
  checks : Nat
  status : List StatusUpdate

def pushStatus (st : RunState) (u : StatusUpdate) : RunState :=
  { st with status := st.status ++ [u] }

def markStarted (st : RunState) (t : StepTag) : RunState :=
  { st with started := st.started ++ [t] }

def markCompleted (st : RunState) (t : StepTag) : RunState :=
  { st with completed := st.completed ++ [t] }

/-- Model of `if (checkCanceled()) throw new Error(...)`. -/
def checkStep (env : StepEnv) (st : RunState) : Except (String × RunState) RunState :=
  let st1 := { st with checks := st.checks + 1 }
  if env.cancelAt st.checks then .error (cancelErrMsg, st1) else .ok st1

/-- Step 1: copy the WordPress template to `projectPath`, then register the
directory-creation rollback action. -/
def copyStep (env : StepEnv) (projectPath : String) (st0 : RunState) :
    Except (String × RunState) RunState :=
  match checkStep env st0 with
  | .error e => .error e
  | .ok st1 =>
    let st := pushStatus (markStarted st1 .copy) ⟨"copy", "Copie du dossier WordPress...", none⟩
    if env.copyOk then
      let w1 := { st.w with dirs := projectPath :: st.w.dirs }
      let rb1 := registerDirectoryCreation st.rb projectPath
      .ok (pushStatus (markCompleted { st with w := w1, rb := rb1 } .copy)
        ⟨"copy", "Copie terminée avec succès.", some true⟩)
    else
      .error (env.copyErr, st)

/-- Step 2: rewrite `wp-config.php`; no rollback action is registered. -/
def configStep (env : StepEnv) (st0 : RunState) : Except (String × RunState) RunState :=
  match checkStep env st0 with
  | .error e => .error e
  | .ok st1 =>
    let st := pushStatus (markStarted st1 .configure) ⟨"config", "Modification du wp-config.php...", none⟩
    if env.configOk then
      .ok (pushStatus (markCompleted st .configure) ⟨"config", "Configuration mise à jour.", some true⟩)
    else
      .error (env.configErr, st)

/-- Step 3: snapshot the driver config, create the database, then register
the database-creation rollback action carrying the snapshot. -/
def databaseStep (env : StepEnv) (cfg : DatabaseConfig) (databaseName : String)
    (st0 : RunState) : Except (String × RunState) RunState :=
  match checkStep env st0 with
  | .error e => .error e
  | .ok st1 =>
    let st := pushStatus (markStarted st1 .createDb) ⟨"database", "Création de la base de données...", none⟩
    let currentDbConfig := mysqlGetConfig cfg
    match mysqlCreateDatabase cfg st.w databaseName with
    | .error msg => .error (msg, st)
    | .ok (w1, _res) =>
        let rb1 := registerDatabaseCreation st.rb databaseName currentDbConfig
        .ok (pushStatus (markCompleted { st with w := w1, rb := rb1 } .createDb)
          ⟨"database", "Base de données créée avec succès.", some true⟩)

/-- Step 4 (optional): install themes; an inner try/catch makes any failure
non-fatal, surfaced only in the status update. -/
def themesStep (env : StepEnv) (st0 : RunState) : Except (String × RunState) RunState :=
  match checkStep env st0 with
  | .error e => .error e
  | .ok st1 =>
    let st := pushStatus (markStarted st1 .installThemes) ⟨"themes", "Installation des thèmes...", none⟩
    match env.themesOutcome with
    | .ok r =>
        .ok (pushStatus (markCompleted st .installThemes)
          ⟨"themes", r.message.getD "", some r.success⟩)
    | .error msg =>
        .ok (pushStatus (markCompleted st .installThemes)
          ⟨"themes", "Erreur: " ++ msg, some false⟩)

/-- Step 5 (optional): install plugins; same non-fatal handling as themes. -/
def pluginsStep (env : StepEnv) (st0 : RunState) : Except (String × RunState) RunState :=
  match checkStep env st0 with
  | .error e => .error e
  | .ok st1 =>
    let st := pushStatus (markStarted st1 .installPlugins) ⟨"plugins", "Installation des plugins...", none⟩
    match env.pluginsOutcome with
    | .ok r =>
        .ok (pushStatus (markCompleted st .installPlugins)
          ⟨"plugins", r.message.getD "", some r.success⟩)
    | .error msg =>
        .ok (pushStatus (markCompleted st .installPlugins)
          ⟨"plugins", "Erreur: " ++ msg, some false⟩)

/-- Step 6: set filesystem permissions; `setWordPressPermissions` catches
its own errors and returns a result, so this step never throws. -/
def permissionsStep (env : StepEnv) (st0 : RunState) : Except (String × RunState) RunState :=
  match checkStep env st0 with
  | .error e => .error e
  | .ok st1 =>
    let st := pushStatus (markStarted st1 .setPermissions)
      ⟨"permissions", "Configuration des permissions fichiers/dossiers...", none⟩
    .ok (pushStatus (markCompleted st .setPermissions)
      ⟨"permissions", jsOrElse env.permsMsg "Permissions configurées.", some env.permsSuccess⟩)

/-- Final step: vhost emission, pure computation, not preceded by a
cancellation check in the source. -/
def vhostStep (data : GenerateWordPressData) (projectPath : String) (st : RunState) :
    RunState × String × String × String :=
  let serverName :=
    match data.serverName with
    | some s => if s = "" then getSuggestedServerName data.projectName else s
    | none => getSuggestedServerName data.projectName
  let vhost := generateVhostConfig data.projectName projectPath serverName
  let hosts := generateHostsEntry serverName
  (markCompleted (markStarted st .emitVhost) .emitVhost, vhost, hosts, serverName)

/-- Sequencing of fatal-failure steps: a thrown failure short-circuits. -/
def stepThen (f : RunState → Except (String × RunState) RunState)
    (r : Except (String × RunState) RunState) :
    Except (String × RunState) RunState :=
  match r with
  | .error e => .error e
  | .ok st => f st

/-- The final, never-failing vhost emission applied to the chain's result. -/
def finishVhost (data : GenerateWordPressData) (projectPath : String)
    (r : Except (String × RunState) RunState) :
    Except (String × RunState) (RunState × String × String × String) :=
  match r with
  | .error e => .error e
  | .ok st => .ok (vhostStep data projectPath st)

def themesStepOpt (env : StepEnv) (data : GenerateWordPressData) (st : RunState) :
    Except (String × RunState) RunState :=
  if jsTruthy data.themesPath then themesStep env st else .ok st

def pluginsStepOpt (env : StepEnv) (data : GenerateWordPressData) (st : RunState) :
    Except (String × RunState) RunState :=
  if jsTruthy data.pluginsPath then pluginsStep env st else .ok st

def tryBody (env : StepEnv) (data : GenerateWordPressData) (cfg : DatabaseConfig)
    (projectPath : String) (st0 : RunState) :
    Except (String × RunState) (RunState × String × String × String) :=
  finishVhost data projectPath
    (stepThen (permissionsStep env)
      (stepThen (pluginsStepOpt env data)
        (stepThen (themesStepOpt env data)
          (stepThen (databaseStep env cfg data.databaseName)
            (stepThen (configStep env)
              (copyStep env projectPath st0))))))

theorem stepThen_ok (f : RunState → Except (String × RunState) RunState)
    (st : RunState) : stepThen f (.ok st) = f st := rfl

theorem stepThen_error (f : RunState → Except (String × RunState) RunState)
    (e : String × RunState) : stepThen f (.error e) = .error e := rfl

theorem finishVhost_ok (data : GenerateWordPressData) (pp : String) (st : RunState) :
    finishVhost data pp (.ok st) = .ok (vhostStep data pp st) := rfl

theorem finishVhost_error (data : GenerateWordPressData) (pp : String)
    (e : String × RunState) : finishVhost data pp (.error e) = .error e := rfl

structure PipelineOutcome where
  world : World
  result : ServiceResult
  rollback : RollbackState
  driverCfg : DatabaseConfig
  shellRegexLastIndex : Nat
  stepsStarted : List StepTag
  stepsCompleted : List StepTag
  checksPerformed : Nat
  /-- contents of the ledger at the moment the catch block ran, if it ran -/
  ledgerAtFailure : Option (List RollbackAction)
  rollbackResult : Option RollbackResult
  rollbackTrace : List RollbackAction
  statusUpdates : List StatusUpdate

/-- The `try`/`catch` part of the handler, entered with the ledger already
cleared (`rb1`), the effective driver config `cfg` and regex state `li2`:
the duplicate-project pre-check, the step sequence, and on any thrown step
failure the single catch block that runs the rollback. -/
def dupProjectMsg (projectName : String) : String :=
  "Le projet \x22" ++ projectName ++
    "\x22 existe déjà dans ce répertoire. Veuillez choisir un autre nom ou supprimer le dossier existant."

def runPipelineSteps (env : StepEnv) (data : GenerateWordPressData)
    (cfg : DatabaseConfig) (rb1 : RollbackState) (w0 : World) (li2 : Nat) :
    PipelineOutcome :=
  let projectPath := pathJoin data.destinationPath data.projectName
  let dupMsg := dupProjectMsg data.projectName
  if pathExists w0 projectPath then
    { world := w0,
      result := { success := false, message := some dupMsg },
      rollback := rb1, driverCfg := cfg, shellRegexLastIndex := li2,
      stepsStarted := [], stepsCompleted := [], checksPerformed := 0,
      ledgerAtFailure := none, rollbackResult := none, rollbackTrace := [],
      statusUpdates := [] }
  else
    match tryBody env data cfg projectPath ⟨w0, rb1, [], [], 0, []⟩ with
    | .ok (st, vhost, hosts, serverName) =>
        let okResult : ServiceResult :=
          { success := true,
            message := some "Projet WordPress généré avec succès!",
            vhostConfig := some vhost, hostsEntry := some hosts,
            serverName := some serverName }
        { world := st.w,
          result := okResult,
          rollback := clearActions st.rb,
          driverCfg := cfg, shellRegexLastIndex := li2,
          stepsStarted := st.started, stepsCompleted := st.completed,
          checksPerformed := st.checks, ledgerAtFailure := none,
          rollbackResult := none, rollbackTrace := [],
          statusUpdates := st.status }
    | .error (msg, st) =>
        let st1 := pushStatus st ⟨"rollback", "Annulation des modifications...", some false⟩
        let r := rollbackExecute env.home st.w st.rb
        let st2 := pushStatus st1 ⟨"error", "Erreur: " ++ msg, some false⟩
        { world := r.1,
          result := { success := false, message := some msg },
          rollback := r.2.1,
          driverCfg := cfg, shellRegexLastIndex := li2,
          stepsStarted := st.started, stepsCompleted := st.completed,
          checksPerformed := st.checks,
          ledgerAtFailure := some st.rb.actions,
          rollbackResult := some r.2.2.1,
          rollbackTrace := r.2.2.2,
          statusUpdates := st2.status }

/-- The `generate-wordpress` IPC handler.  `cfg0`/`rb0`/`w0` are the driver
config, rollback ledger and world at entry, `li0` the `lastIndex` of the
global-flag regex.  A `.error` is an exception escaping the handler (only
`setConfig` on an invalid `dbConfig` can do that). -/
def generateWordPress (env : StepEnv) (data : GenerateWordPressData)
    (cfg0 : DatabaseConfig) (rb0 : RollbackState) (w0 : World) (li0 : Nat) :
    Except String PipelineOutcome :=
  let earlyFail : Option String → Nat → PipelineOutcome := fun msg li =>
    { world := w0, result := { success := false, message := msg },
      rollback := rb0, driverCfg := cfg0, shellRegexLastIndex := li,
      stepsStarted := [], stepsCompleted := [], checksPerformed := 0,
      ledgerAtFailure := none, rollbackResult := none, rollbackTrace := [],
      statusUpdates := [] }
  let pv := validateProjectName data.projectName
  if !pv.valid then .ok (earlyFail pv.error li0)
  else
    let dv := validateDatabaseName data.databaseName
    if !dv.valid then .ok (earlyFail dv.error li0)
    else
      let pathvLi := validatePath data.destinationPath li0
      if !pathvLi.1.valid then .ok (earlyFail pathvLi.1.error pathvLi.2)
      else
        match (match data.dbConfig with
               | some c => mysqlSetConfig cfg0 c pathvLi.2
               | none => .ok (cfg0, pathvLi.2)) with
        | .error msg => .error msg
        | .ok (cfg, li2) =>
          .ok (runPipelineSteps env data cfg (clearActions rb0) w0 li2)

/-! ## Projections on the result tuple of `rollbackExecute` -/

def rbWorld (x : World × RollbackState × RollbackResult × List RollbackAction) : World := x.1
def rbState (x : World × RollbackState × RollbackResult × List RollbackAction) : RollbackState := x.2.1
def rbResult (x : World × RollbackState × RollbackResult × List RollbackAction) : RollbackResult := x.2.2.1
def rbTrace (x : World × RollbackState × RollbackResult × List RollbackAction) : List RollbackAction := x.2.2.2

/-! ## Basic lemmas about the rollback loop -/

theorem rollbackRun_trace (home : String) (l : List RollbackAction) :
    ∀ w : World, (rollbackRun home w l).2.2 = l := by
  induction l with
  | nil => intro w; rfl
  | cons a rest ih =>
      intro w
      unfold rollbackRun
      cases h : executeAction home w a with
      | ok w1 =>
          rcases hr : rollbackRun home w1 rest with ⟨w2, errs, tr⟩
          have := ih w1
          rw [hr] at this
          simp only at this
          simp [hr, this]
      | error msg =>
          rcases hr : rollbackRun home w rest with ⟨w2, errs, tr⟩
          have := ih w
          rw [hr] at this
          simp only at this
          simp [hr, this]

theorem rollbackExecute_empty (home : String) (w : World) (st : RollbackState)
    (h : st.actions = []) : rollbackExecute home w st = (w, st, ⟨true, []⟩, []) := by
  unfold rollbackExecute
  simp [h]

theorem rollbackExecute_actions_empty (home : String) (w : World) (st : RollbackState) :
    (rbState (rollbackExecute home w st)).actions = [] := by
  unfold rollbackExecute
  cases h : st.actions with
  | nil => simp [rbState, h]
  | cons a rest =>
      rcases hr : rollbackRun home w ((a :: rest).reverse) with ⟨w1, errs, tr⟩
      simp [rbState, hr, List.isEmpty]

theorem rollbackExecute_trace (home : String) (w : World) (st : RollbackState) :
    rbTrace (rollbackExecute home w st) = st.actions.reverse := by
  unfold rollbackExecute
  cases h : st.actions with
  | nil => simp [rbTrace, h]
  | cons a rest =>
      have htr := rollbackRun_trace home ((a :: rest).reverse) w
      rcases hr : rollbackRun home w ((a :: rest).reverse) with ⟨w1, errs, tr⟩
      rw [hr] at htr
      simp only at htr
      simp [rbTrace, hr, List.isEmpty]
      simpa using htr

theorem rollbackExecute_success_iff (home : String) (w : World) (st : RollbackState) :
    (rbResult (rollbackExecute home w st)).success =
      (rbResult (rollbackExecute home w st)).errors.isEmpty := by
  unfold rollbackExecute
  cases h : st.actions with
  | nil => simp [rbResult]
  | cons a rest =>
      rcases hr : rollbackRun home w ((a :: rest).reverse) with ⟨w1, errs, tr⟩
      simp [rbResult, hr, List.isEmpty]

/-! ## Claim C2: rollback executes in strict LIFO order -/

/-- C2: `RollbackService.execute()` attempts the recorded compensating
actions in strict reverse of registration order; in particular, for a
ledger where a directory action was registered before a database action,
the database action is attempted before the directory action. -/
theorem c2_rollback_lifo (home : String) (w : World) (st : RollbackState) :
    rbTrace (rollbackExecute home w st) = st.actions.reverse ∧
    (∀ (d n : String) (c : DatabaseConfig) (b : Bool),
      rbTrace (rollbackExecute home w ⟨[mkDirectoryAction d, mkDatabaseAction n c], b⟩) =
        [mkDatabaseAction n c, mkDirectoryAction d]) := by
  refine ⟨rollbackExecute_trace home w st, ?_⟩
  intro d n c b
  rw [rollbackExecute_trace home w ⟨[mkDirectoryAction d, mkDatabaseAction n c], b⟩]
  rfl

/-! ## Claim C4: execute() error collection and ledger clearing -/

/-- C4: `execute()` on an empty ledger returns `{success := true, errors := []}`
and changes nothing; in general every action is attempted (the attempt trace
is the full reversed ledger, regardless of per-action failures), the result
satisfies `success = errors.isEmpty`, and the ledger is empty afterwards. -/
theorem c4_execute_spec (home : String) (w : World) (st : RollbackState) :
    (st.actions = [] → rollbackExecute home w st = (w, st, ⟨true, []⟩, [])) ∧
    (rbState (rollbackExecute home w st)).actions = [] ∧
    (rbResult (rollbackExecute home w st)).success =
      (rbResult (rollbackExecute home w st)).errors.isEmpty ∧
    rbTrace (rollbackExecute home w st) = st.actions.reverse := by
  exact ⟨rollbackExecute_empty home w st,
    rollbackExecute_actions_empty home w st,
    rollbackExecute_success_iff home w st,
    rollbackExecute_trace home w st⟩

def probeWorld : World := ⟨[], [], [], fun _ => true⟩

theorem c4_execute_spec_witness :
    rollbackExecute "/home/user" probeWorld ⟨[], false⟩ =
      (probeWorld, ⟨[], false⟩, ⟨true, []⟩, []) :=
  (c4_execute_spec "/home/user" probeWorld ⟨[], false⟩).1 rfl

/-! ## Claim C8: idempotence of the compensating deletions -/

/-- C8: rolling back an already-absent directory succeeds without error and
leaves the world unchanged; `dropDatabase` on an already-absent database
returns success (`"Base de données inexistante"`); and running `execute()`
a second time after a completed rollback yields `{success := true, errors := []}`. -/
theorem c8_rollback_idempotent :
    (∀ (home : String) (w : World) (p : String),
        p ≠ "" → pathExists w p = false →
        rollbackDirectory home w (some p) = .ok w) ∧
    (∀ (cfg : DatabaseConfig) (w : World) (n : String),
        (validateDatabaseName n).valid = true →
        systemDatabases.contains (jsLower n) = false →
        w.dbReachable cfg = true →
        w.databases.contains n = false →
        mysqlDropDatabase cfg w n =
          .ok (w, { success := true, message := some "Base de données inexistante" })) ∧
    (∀ (home : String) (w : World) (st : RollbackState),
        rbResult (rollbackExecute home
          (rbWorld (rollbackExecute home w st))
          (rbState (rollbackExecute home w st))) = ⟨true, []⟩) := by
  refine ⟨?_, ?_, ?_⟩
  · intro home w p hp hex
    unfold rollbackDirectory
    simp [hp, hex]
  · intro cfg w n hval hsys hreach habs
    have hsys2 : ¬ (jsLower n ∈ systemDatabases) := by simpa using hsys
    have habs2 : ¬ (n ∈ w.databases) := by simpa using habs
    unfold mysqlDropDatabase
    simp [hval, hsys2, hreach, habs2]
  · intro home w st
    have h := rollbackExecute_actions_empty home w st
    rw [rollbackExecute_empty home
      (rbWorld (rollbackExecute home w st))
      (rbState (rollbackExecute home w st)) h]
    rfl

theorem c8_rollback_idempotent_witness :
    rollbackDirectory "/home/user" probeWorld (some "/tmp/gone") = .ok probeWorld ∧
    mysqlDropDatabase ⟨"localhost", 3306, "root", ""⟩ probeWorld "demo_db" =
      .ok (probeWorld, { success := true, message := some "Base de données inexistante" }) := by
  constructor
  · exact c8_rollback_idempotent.1 "/home/user" probeWorld "/tmp/gone" (by decide) rfl
  · exact c8_rollback_idempotent.2.1 ⟨"localhost", 3306, "root", ""⟩ probeWorld "demo_db"
      (by decide) (by decide) rfl rfl

/-! ## Claim C9: suggested server name derivation -/

/-- Written from the spec sentence of C9 ("non-alphanumeric runs collapsed
to single hyphens"): after lowercasing, each maximal run of characters that
are not ASCII alphanumerics becomes a single hyphen. -/
def collapseNonAlnumAux : Bool → List Char → List Char
  | _, [] => []
  | inRun, c :: rest =>
      if !isAsciiAlnum c then
        if inRun then collapseNonAlnumAux true rest
        else '-' :: collapseNonAlnumAux true rest
      else c :: collapseNonAlnumAux false rest

/-- The derivation described by claim C9: lowercase, collapse every run of
non-alphanumerics to one hyphen, suffix `".local"`. -/
def suggestedServerNameClaimC9 (projectName : String) : String :=
  ⟨collapseNonAlnumAux false (projectName.data.map jsLowerChar)⟩ ++ ".local"

/-- C9 counterexample: for the valid project name `"a--b"` the source keeps
the hyphen run (`"a--b.local"`), while the claim's derivation collapses it
(`"a-b.local"`); the two disagree (the source only collapses runs of
underscores/whitespace and deletes, rather than hyphenates, the remaining
non-alphanumerics). -/
theorem c9_counterexample :
    (validateProjectName "a--b").valid = true ∧
    getSuggestedServerName "a--b" = "a--b.local" ∧
    suggestedServerNameClaimC9 "a--b" = "a-b.local" ∧
    getSuggestedServerName "a--b" ≠ suggestedServerNameClaimC9 "a--b" := by
  refine ⟨by decide, by decide, by decide, by decide⟩

/-- Single-pass form of the amended derivation: lowercase each character;
a run of underscores/whitespace emits one hyphen; any other character is
kept exactly when it is a lowercase letter, a digit or a hyphen. -/
def suggestedNameAmendedAux : Bool → List Char → List Char
  | _, [] => []
  | inRun, c :: rest =>
      if isUnderscoreOrWs c then
        if inRun then suggestedNameAmendedAux true rest
        else '-' :: suggestedNameAmendedAux true rest
      else if keepDomainChar c then c :: suggestedNameAmendedAux false rest
      else suggestedNameAmendedAux false rest

def suggestedServerNameAmended (projectName : String) : String :=
  ⟨suggestedNameAmendedAux false (projectName.data.map jsLowerChar)⟩ ++ ".local"

theorem filter_collapseUws_eq_amended (l : List Char) :
    ∀ b : Bool, (collapseUwsAux b l).filter keepDomainChar = suggestedNameAmendedAux b l := by
  induction l with
  | nil => intro b; rfl
  | cons c rest ih =>
      intro b
      by_cases h : isUnderscoreOrWs c = true
      · cases b with
        | false =>
            have hk : keepDomainChar '-' = true := by decide
            simp [collapseUwsAux, suggestedNameAmendedAux, h, hk, ih]
        | true => simp [collapseUwsAux, suggestedNameAmendedAux, h, ih]
      · have h2 : isUnderscoreOrWs c = false := by simpa using h
        by_cases hk : keepDomainChar c = true
        · simp [collapseUwsAux, suggestedNameAmendedAux, h2, hk, ih]
        · have hk2 : keepDomainChar c = false := by simpa using hk
          simp [collapseUwsAux, suggestedNameAmendedAux, h2, hk2, ih]

/-- C9 amended: for every project name, the suggested server name is the
name lowercased, with every run of underscores and whitespace collapsed to
a single hyphen, every remaining character other than lowercase letters,
digits and hyphens removed, suffixed with the fixed label `".local"`. -/
theorem c9_amended_suggested_name (projectName : String) :
    getSuggestedServerName projectName = suggestedServerNameAmended projectName := by
  unfold getSuggestedServerName suggestedServerNameAmended
  rw [filter_collapseUws_eq_amended]

/-! ## Claim C10: statefulness of `Validator.validatePath` -/

/-- C10: `validatePath` is not deterministic across calls.  On the input
`"a\\b"` (a backslash between two letters) with the regex's `lastIndex`
initially `0`, the first call rejects the path ("caractères non autorisés")
and leaves `lastIndex = 2`; the immediately following call with the same
argument then misses the backslash and accepts the very same path. -/
theorem c10_validatePath_stateful :
    validatePath "a\\b" 0 =
      (⟨false, some "Le chemin contient des caractères non autorisés", none⟩, 2) ∧
    validatePath "a\\b" (validatePath "a\\b" 0).2 =
      (⟨true, none, some "a\\b"⟩, 0) := by
  refine ⟨by decide, by decide⟩

/-! ## Claim C1: the concrete failed-CreateDatabase scenario -/

def demoData : GenerateWordPressData :=
  { projectName := "demo", databaseName := "demo_db", destinationPath := "/tmp/proj" }

def demoCfg : DatabaseConfig := ⟨"localhost", 3306, "root", ""⟩

/-- All collaborators behave, nothing is cancelled; the only obstacle in
the scenario is the pre-existing `demo_db` database in `demoWorld`. -/
def demoEnv : StepEnv :=
  { home := "/home/user", cancelAt := fun _ => false,
    copyOk := true, copyErr := "copy failed",
    configOk := true, configErr := "config failed",
    themesOutcome := .ok { success := true },
    pluginsOutcome := .ok { success := true },
    permsSuccess := true,
    permsMsg := some "Permissions 777 appliquées: 2 dossiers, 3 fichiers" }

/-- For `createDatabase` to fail with "database already exists", `demo_db`
must already exist on the server before the run. -/
def demoWorld : World :=
  { dirs := ["/tmp/proj"], files := [], databases := ["demo_db"],
    dbReachable := fun _ => true }

def fallbackOutcome : PipelineOutcome :=
  { world := ⟨[], [], [], fun _ => false⟩,
    result := { success := false }, rollback := ⟨[], false⟩,
    driverCfg := ⟨"", 0, "", ""⟩, shellRegexLastIndex := 0,
    stepsStarted := [], stepsCompleted := [], checksPerformed := 0,
    ledgerAtFailure := none, rollbackResult := none, rollbackTrace := [],
    statusUpdates := [] }

def demoRun : PipelineOutcome :=
  match generateWordPress demoEnv demoData demoCfg ⟨[], false⟩ demoWorld 0 with
  | .ok o => o
  | .error _ => fallbackOutcome

/-- C1 counterexample: in the described run the pipeline does return
`success := false` with the "database already exists" failure and the copied
`/tmp/proj/demo` directory is removed again, but the `demo_db` database
still exists after the run: it pre-existed (which is what made
`createDatabase` fail), no `DatabaseCreated` compensation was registered,
and rollback drops nothing — so the claim's final conjunct is false. -/
theorem c1_counterexample :
    (generateWordPress demoEnv demoData demoCfg ⟨[], false⟩ demoWorld 0).isOk = true ∧
    demoRun.result.success = false ∧
    demoRun.result.message = some
      "Erreur lors de la création de la base de données: La base de données \x27demo_db\x27 existe déjà" ∧
    pathExists demoRun.world "/tmp/proj/demo" = false ∧
    demoRun.world.databases.contains "demo_db" = true := by
  refine ⟨by decide, by decide, by decide, by decide, by decide⟩

/-- C1 amended: the run returns `success := false`, the copied
`/tmp/proj/demo` directory no longer exists, the rollback (one directory
action) succeeded, and the database state is exactly as before the run —
in particular the pre-existing `demo_db` still exists; the pipeline neither
created nor dropped any database. -/
theorem c1_amended_scenario :
    demoRun.result.success = false ∧
    pathExists demoRun.world "/tmp/proj/demo" = false ∧
    demoRun.world.databases = demoWorld.databases ∧
    demoRun.ledgerAtFailure = some [mkDirectoryAction "/tmp/proj/demo"] ∧
    demoRun.rollbackResult = some ⟨true, []⟩ := by
  refine ⟨by decide, by decide, by decide, by decide, by decide⟩


/-! ## Characterization lemmas for the pipeline steps -/

theorem checkStep_ok_eq {env : StepEnv} {st st' : RunState}
    (h : checkStep env st = .ok st') :
    st' = { st with checks := st.checks + 1 } ∧ env.cancelAt st.checks = false := by
  unfold checkStep at h
  by_cases hc : env.cancelAt st.checks
  · simp [hc] at h
  · have hc2 : env.cancelAt st.checks = false := by simpa using hc
    simp [hc2] at h
    exact ⟨h.symm, hc2⟩

theorem checkStep_error_eq {env : StepEnv} {st st' : RunState} {m : String}
    (h : checkStep env st = .error (m, st')) :
    st' = { st with checks := st.checks + 1 } ∧ m = cancelErrMsg ∧
      env.cancelAt st.checks = true := by
  unfold checkStep at h
  by_cases hc : env.cancelAt st.checks
  · simp [hc] at h
    exact ⟨h.2.symm, h.1.symm, hc⟩
  · have hc2 : env.cancelAt st.checks = false := by simpa using hc
    simp [hc2] at h

theorem copyStep_ok_char {env : StepEnv} {pp : String} {st0 st' : RunState}
    (h : copyStep env pp st0 = .ok st') :
    env.cancelAt st0.checks = false ∧ env.copyOk = true ∧
    st'.w = { st0.w with dirs := pp :: st0.w.dirs } ∧
    st'.rb = registerDirectoryCreation st0.rb pp ∧
    st'.started = st0.started ++ [.copy] ∧
    st'.completed = st0.completed ++ [.copy] ∧
    st'.checks = st0.checks + 1 ∧
    (∃ us, st'.status = st0.status ++ us) := by
  unfold copyStep at h
  cases hcs : checkStep env st0 with
  | error e => rw [hcs] at h; simp at h
  | ok st1 =>
      obtain ⟨hst1, hcan⟩ := checkStep_ok_eq hcs
      rw [hcs] at h
      by_cases hok : env.copyOk
      · simp only [hok, if_true] at h
        subst hst1
        cases h
        refine ⟨hcan, hok, ?_, ?_, ?_, ?_, ?_, ?_⟩ <;>
          simp [pushStatus, markStarted, markCompleted]
      · have hok2 : env.copyOk = false := by simpa using hok
        simp [hok2] at h

theorem copyStep_error_char {env : StepEnv} {pp : String} {st0 st' : RunState} {m : String}
    (h : copyStep env pp st0 = .error (m, st')) :
    st'.w = st0.w ∧ st'.rb = st0.rb ∧ st'.completed = st0.completed ∧
    st'.checks = st0.checks + 1 ∧
    ((m = cancelErrMsg ∧ env.cancelAt st0.checks = true ∧ st'.started = st0.started) ∨
     (m = env.copyErr ∧ env.cancelAt st0.checks = false ∧ env.copyOk = false ∧
       st'.started = st0.started ++ [.copy])) := by
  unfold copyStep at h
  cases hcs : checkStep env st0 with
  | error e =>
      rw [hcs] at h
      rcases e with ⟨m0, stE⟩
      simp at h
      obtain ⟨hm, hst⟩ := h
      obtain ⟨hse, hmc, hcanc⟩ := checkStep_error_eq hcs
      subst hm
      rw [← hst, hse]
      exact ⟨rfl, rfl, rfl, rfl, Or.inl ⟨hmc, hcanc, rfl⟩⟩
  | ok st1 =>
      obtain ⟨hst1, hcan⟩ := checkStep_ok_eq hcs
      rw [hcs] at h
      by_cases hok : env.copyOk
      · simp [hok] at h
      · have hok2 : env.copyOk = false := by simpa using hok
        simp only [hok2, if_false, Bool.false_eq_true] at h
        cases h
        subst hst1
        refine ⟨rfl, rfl, rfl, rfl, Or.inr ⟨rfl, hcan, hok2, ?_⟩⟩
        simp [pushStatus, markStarted]


theorem configStep_ok_char {env : StepEnv} {st0 st' : RunState}
    (h : configStep env st0 = .ok st') :
    env.cancelAt st0.checks = false ∧ env.configOk = true ∧
    st'.w = st0.w ∧ st'.rb = st0.rb ∧
    st'.started = st0.started ++ [.configure] ∧
    st'.completed = st0.completed ++ [.configure] ∧
    st'.checks = st0.checks + 1 ∧
    (∃ us, st'.status = st0.status ++ us) := by
  unfold configStep at h
  cases hcs : checkStep env st0 with
  | error e => rw [hcs] at h; simp at h
  | ok st1 =>
      obtain ⟨hst1, hcan⟩ := checkStep_ok_eq hcs
      rw [hcs] at h
      by_cases hok : env.configOk
      · simp only [hok, if_true] at h
        subst hst1
        cases h
        refine ⟨hcan, hok, ?_, ?_, ?_, ?_, ?_, ?_⟩ <;>
          simp [pushStatus, markStarted, markCompleted]
      · have hok2 : env.configOk = false := by simpa using hok
        simp [hok2] at h

theorem configStep_error_char {env : StepEnv} {st0 st' : RunState} {m : String}
    (h : configStep env st0 = .error (m, st')) :
    st'.w = st0.w ∧ st'.rb = st0.rb ∧ st'.completed = st0.completed ∧
    st'.checks = st0.checks + 1 ∧
    ((m = cancelErrMsg ∧ env.cancelAt st0.checks = true ∧ st'.started = st0.started) ∨
     (m = env.configErr ∧ env.cancelAt st0.checks = false ∧ env.configOk = false ∧
       st'.started = st0.started ++ [.configure])) := by
  unfold configStep at h
  cases hcs : checkStep env st0 with
  | error e =>
      rw [hcs] at h
      rcases e with ⟨m0, stE⟩
      simp at h
      obtain ⟨hm, hst⟩ := h
      obtain ⟨hse, hmc, hcanc⟩ := checkStep_error_eq hcs
      subst hm
      rw [← hst, hse]
      exact ⟨rfl, rfl, rfl, rfl, Or.inl ⟨hmc, hcanc, rfl⟩⟩
  | ok st1 =>
      obtain ⟨hst1, hcan⟩ := checkStep_ok_eq hcs
      rw [hcs] at h
      by_cases hok : env.configOk
      · simp [hok] at h
      · have hok2 : env.configOk = false := by simpa using hok
        simp only [hok2, if_false, Bool.false_eq_true] at h
        cases h
        subst hst1
        refine ⟨rfl, rfl, rfl, rfl, Or.inr ⟨rfl, hcan, hok2, ?_⟩⟩
        simp [pushStatus, markStarted]

theorem databaseStep_ok_char {env : StepEnv} {cfg : DatabaseConfig} {dbn : String}
    {st0 st' : RunState} (h : databaseStep env cfg dbn st0 = .ok st') :
    env.cancelAt st0.checks = false ∧
    (∃ res, mysqlCreateDatabase cfg st0.w dbn = .ok (st'.w, res)) ∧
    st'.rb = registerDatabaseCreation st0.rb dbn cfg ∧
    st'.started = st0.started ++ [.createDb] ∧
    st'.completed = st0.completed ++ [.createDb] ∧
    st'.checks = st0.checks + 1 ∧
    (∃ us, st'.status = st0.status ++ us) := by
  unfold databaseStep at h
  cases hcs : checkStep env st0 with
  | error e => rw [hcs] at h; simp at h
  | ok st1 =>
      obtain ⟨hst1, hcan⟩ := checkStep_ok_eq hcs
      rw [hcs] at h
      subst hst1
      simp only [pushStatus, markStarted, mysqlGetConfig] at h
      cases hdb : mysqlCreateDatabase cfg st0.w dbn with
      | error msg => rw [hdb] at h; simp at h
      | ok p =>
          rcases p with ⟨w1, res⟩
          rw [hdb] at h
          simp only [Except.ok.injEq] at h
          cases h
          refine ⟨hcan, ⟨res, ?_⟩, ?_, ?_, ?_, ?_, ?_⟩ <;>
            simp [pushStatus, markStarted, markCompleted, hdb]

theorem databaseStep_error_char {env : StepEnv} {cfg : DatabaseConfig} {dbn : String}
    {st0 st' : RunState} {m : String}
    (h : databaseStep env cfg dbn st0 = .error (m, st')) :
    st'.w = st0.w ∧ st'.rb = st0.rb ∧ st'.completed = st0.completed ∧
    st'.checks = st0.checks + 1 ∧
    ((m = cancelErrMsg ∧ env.cancelAt st0.checks = true ∧ st'.started = st0.started) ∨
     (env.cancelAt st0.checks = false ∧ mysqlCreateDatabase cfg st0.w dbn = .error m ∧
       st'.started = st0.started ++ [.createDb])) := by
  unfold databaseStep at h
  cases hcs : checkStep env st0 with
  | error e =>
      rw [hcs] at h
      rcases e with ⟨m0, stE⟩
      simp at h
      obtain ⟨hm, hst⟩ := h
      obtain ⟨hse, hmc, hcanc⟩ := checkStep_error_eq hcs
      subst hm
      rw [← hst, hse]
      exact ⟨rfl, rfl, rfl, rfl, Or.inl ⟨hmc, hcanc, rfl⟩⟩
  | ok st1 =>
      obtain ⟨hst1, hcan⟩ := checkStep_ok_eq hcs
      rw [hcs] at h
      subst hst1
      simp only [pushStatus, markStarted, mysqlGetConfig] at h
      cases hdb : mysqlCreateDatabase cfg st0.w dbn with
      | ok p => rw [hdb] at h; simp at h
      | error msg =>
          rw [hdb] at h
          simp only [Except.error.injEq, Prod.mk.injEq] at h
          obtain ⟨hm, hst⟩ := h
          subst hm
          rw [← hst]
          exact ⟨rfl, rfl, rfl, rfl, Or.inr ⟨hcan, rfl, rfl⟩⟩

/-- The status update the themes step ends with, as a function of the
extraction outcome. -/
def themesFinalStatus (env : StepEnv) : StatusUpdate :=
  match env.themesOutcome with
  | .ok r => ⟨"themes", r.message.getD "", some r.success⟩
  | .error msg => ⟨"themes", "Erreur: " ++ msg, some false⟩

def pluginsFinalStatus (env : StepEnv) : StatusUpdate :=
  match env.pluginsOutcome with
  | .ok r => ⟨"plugins", r.message.getD "", some r.success⟩
  | .error msg => ⟨"plugins", "Erreur: " ++ msg, some false⟩

theorem themesStep_ok_char {env : StepEnv} {st0 st' : RunState}
    (h : themesStep env st0 = .ok st') :
    env.cancelAt st0.checks = false ∧
    st'.w = st0.w ∧ st'.rb = st0.rb ∧
    st'.started = st0.started ++ [.installThemes] ∧
    st'.completed = st0.completed ++ [.installThemes] ∧
    st'.checks = st0.checks + 1 ∧
    st'.status = st0.status ++
      [⟨"themes", "Installation des thèmes...", none⟩, themesFinalStatus env] := by
  unfold themesStep at h
  cases hcs : checkStep env st0 with
  | error e => rw [hcs] at h; simp at h
  | ok st1 =>
      obtain ⟨hst1, hcan⟩ := checkStep_ok_eq hcs
      rw [hcs] at h
      subst hst1
      cases hth : env.themesOutcome with
      | ok r =>
          rw [hth] at h
          simp only [Except.ok.injEq] at h
          cases h
          refine ⟨hcan, ?_, ?_, ?_, ?_, ?_, ?_⟩ <;>
            simp [pushStatus, markStarted, markCompleted, themesFinalStatus, hth]
      | error msg =>
          rw [hth] at h
          simp only [Except.ok.injEq] at h
          cases h
          refine ⟨hcan, ?_, ?_, ?_, ?_, ?_, ?_⟩ <;>
            simp [pushStatus, markStarted, markCompleted, themesFinalStatus, hth]

theorem themesStep_error_char {env : StepEnv} {st0 st' : RunState} {m : String}
    (h : themesStep env st0 = .error (m, st')) :
    st'.w = st0.w ∧ st'.rb = st0.rb ∧ st'.completed = st0.completed ∧
    st'.started = st0.started ∧ st'.checks = st0.checks + 1 ∧
    m = cancelErrMsg ∧ env.cancelAt st0.checks = true := by
  unfold themesStep at h
  cases hcs : checkStep env st0 with
  | error e =>
      rw [hcs] at h
      rcases e with ⟨m0, stE⟩
      simp at h
      obtain ⟨hm, hst⟩ := h
      obtain ⟨hse, hmc, hcanc⟩ := checkStep_error_eq hcs
      subst hm
      rw [← hst, hse]
      exact ⟨rfl, rfl, rfl, rfl, rfl, hmc, hcanc⟩
  | ok st1 =>
      rw [hcs] at h
      cases hth : env.themesOutcome with
      | ok r => rw [hth] at h; simp at h
      | error msg => rw [hth] at h; simp at h

theorem pluginsStep_ok_char {env : StepEnv} {st0 st' : RunState}
    (h : pluginsStep env st0 = .ok st') :
    env.cancelAt st0.checks = false ∧
    st'.w = st0.w ∧ st'.rb = st0.rb ∧
    st'.started = st0.started ++ [.installPlugins] ∧
    st'.completed = st0.completed ++ [.installPlugins] ∧
    st'.checks = st0.checks + 1 ∧
    st'.status = st0.status ++
      [⟨"plugins", "Installation des plugins...", none⟩, pluginsFinalStatus env] := by
  unfold pluginsStep at h
  cases hcs : checkStep env st0 with
  | error e => rw [hcs] at h; simp at h
  | ok st1 =>
      obtain ⟨hst1, hcan⟩ := checkStep_ok_eq hcs
      rw [hcs] at h
      subst hst1
      cases hth : env.pluginsOutcome with
      | ok r =>
          rw [hth] at h
          simp only [Except.ok.injEq] at h
          cases h
          refine ⟨hcan, ?_, ?_, ?_, ?_, ?_, ?_⟩ <;>
            simp [pushStatus, markStarted, markCompleted, pluginsFinalStatus, hth]
      | error msg =>
          rw [hth] at h
          simp only [Except.ok.injEq] at h
          cases h
          refine ⟨hcan, ?_, ?_, ?_, ?_, ?_, ?_⟩ <;>
            simp [pushStatus, markStarted, markCompleted, pluginsFinalStatus, hth]

theorem pluginsStep_error_char {env : StepEnv} {st0 st' : RunState} {m : String}
    (h : pluginsStep env st0 = .error (m, st')) :
    st'.w = st0.w ∧ st'.rb = st0.rb ∧ st'.completed = st0.completed ∧
    st'.started = st0.started ∧ st'.checks = st0.checks + 1 ∧
    m = cancelErrMsg ∧ env.cancelAt st0.checks = true := by
  unfold pluginsStep at h
  cases hcs : checkStep env st0 with
  | error e =>
      rw [hcs] at h
      rcases e with ⟨m0, stE⟩
      simp at h
      obtain ⟨hm, hst⟩ := h
      obtain ⟨hse, hmc, hcanc⟩ := checkStep_error_eq hcs
      subst hm
      rw [← hst, hse]
      exact ⟨rfl, rfl, rfl, rfl, rfl, hmc, hcanc⟩
  | ok st1 =>
      rw [hcs] at h
      cases hth : env.pluginsOutcome with
      | ok r => rw [hth] at h; simp at h
      | error msg => rw [hth] at h; simp at h

theorem permissionsStep_ok_char {env : StepEnv} {st0 st' : RunState}
    (h : permissionsStep env st0 = .ok st') :
    env.cancelAt st0.checks = false ∧
    st'.w = st0.w ∧ st'.rb = st0.rb ∧
    st'.started = st0.started ++ [.setPermissions] ∧
    st'.completed = st0.completed ++ [.setPermissions] ∧
    st'.checks = st0.checks + 1 ∧
    st'.status = st0.status ++
      [⟨"permissions", "Configuration des permissions fichiers/dossiers...", none⟩,
       ⟨"permissions", jsOrElse env.permsMsg "Permissions configurées.",
         some env.permsSuccess⟩] := by
  unfold permissionsStep at h
  cases hcs : checkStep env st0 with
  | error e => rw [hcs] at h; simp at h
  | ok st1 =>
      obtain ⟨hst1, hcan⟩ := checkStep_ok_eq hcs
      rw [hcs] at h
      subst hst1
      simp only [Except.ok.injEq] at h
      cases h
      refine ⟨hcan, ?_, ?_, ?_, ?_, ?_, ?_⟩ <;>
        simp [pushStatus, markStarted, markCompleted]

theorem permissionsStep_error_char {env : StepEnv} {st0 st' : RunState} {m : String}
    (h : permissionsStep env st0 = .error (m, st')) :
    st'.w = st0.w ∧ st'.rb = st0.rb ∧ st'.completed = st0.completed ∧
    st'.started = st0.started ∧ st'.checks = st0.checks + 1 ∧
    m = cancelErrMsg ∧ env.cancelAt st0.checks = true := by
  unfold permissionsStep at h
  cases hcs : checkStep env st0 with
  | error e =>
      rw [hcs] at h
      rcases e with ⟨m0, stE⟩
      simp at h
      obtain ⟨hm, hst⟩ := h
      obtain ⟨hse, hmc, hcanc⟩ := checkStep_error_eq hcs
      subst hm
      rw [← hst, hse]
      exact ⟨rfl, rfl, rfl, rfl, rfl, hmc, hcanc⟩
  | ok st1 => rw [hcs] at h; simp at h

theorem vhostStep_char (data : GenerateWordPressData) (pp : String) (st : RunState) :
    (vhostStep data pp st).1.w = st.w ∧
    (vhostStep data pp st).1.rb = st.rb ∧
    (vhostStep data pp st).1.started = st.started ++ [.emitVhost] ∧
    (vhostStep data pp st).1.completed = st.completed ++ [.emitVhost] ∧
    (vhostStep data pp st).1.checks = st.checks ∧
    (vhostStep data pp st).1.status = st.status := by
  refine ⟨?_, ?_, ?_, ?_, ?_, ?_⟩ <;> simp [vhostStep, markStarted, markCompleted]


/-! ## The ledger invariant (claims C3/C5) -/

/-- The compensating action a forward step registers when it completes:
Copy registers a directory action for the project path, CreateDatabase a
database action carrying the config snapshot; no other step registers. -/
def compensationOf (projectPath databaseName : String) (cfg : DatabaseConfig) :
    StepTag → Option RollbackAction
  | .copy => some (mkDirectoryAction projectPath)
  | .createDb => some (mkDatabaseAction databaseName cfg)
  | _ => none

/-- During the `try` block, the ledger holds exactly the compensations of
the steps completed so far, and no rollback is in progress. -/
def ledgerInv (projectPath databaseName : String) (cfg : DatabaseConfig)
    (st : RunState) : Prop :=
  st.rb.isRollingBack = false ∧
  st.rb.actions = st.completed.filterMap (compensationOf projectPath databaseName cfg)

theorem ledgerInv_of_unchanged {pp dbn : String} {cfg : DatabaseConfig}
    {st st' : RunState} (hinv : ledgerInv pp dbn cfg st)
    (hrb : st'.rb = st.rb) (hc : st'.completed = st.completed) :
    ledgerInv pp dbn cfg st' := by
  constructor
  · rw [hrb]; exact hinv.1
  · rw [hrb, hc]; exact hinv.2

theorem ledgerInv_append_none {pp dbn : String} {cfg : DatabaseConfig}
    {st st' : RunState} {t : StepTag} (hinv : ledgerInv pp dbn cfg st)
    (hrb : st'.rb = st.rb) (hc : st'.completed = st.completed ++ [t])
    (ht : compensationOf pp dbn cfg t = none) :
    ledgerInv pp dbn cfg st' := by
  constructor
  · rw [hrb]; exact hinv.1
  · rw [hrb, hc, List.filterMap_append, hinv.2]
    simp [ht]

theorem ledgerInv_copy {pp dbn : String} {cfg : DatabaseConfig}
    {st st' : RunState} (hinv : ledgerInv pp dbn cfg st)
    (hrb : st'.rb = registerDirectoryCreation st.rb pp)
    (hc : st'.completed = st.completed ++ [.copy]) :
    ledgerInv pp dbn cfg st' := by
  obtain ⟨hflag, hact⟩ := hinv
  constructor
  · rw [hrb]
    simp [registerDirectoryCreation, hflag]
  · rw [hrb, hc]
    simp [registerDirectoryCreation, hflag, List.filterMap_append, hact, compensationOf]

theorem ledgerInv_createDb {pp dbn : String} {cfg : DatabaseConfig}
    {st st' : RunState} (hinv : ledgerInv pp dbn cfg st)
    (hrb : st'.rb = registerDatabaseCreation st.rb dbn cfg)
    (hc : st'.completed = st.completed ++ [.createDb]) :
    ledgerInv pp dbn cfg st' := by
  obtain ⟨hflag, hact⟩ := hinv
  constructor
  · rw [hrb]
    simp [registerDatabaseCreation, hflag]
  · rw [hrb, hc]
    simp [registerDatabaseCreation, hflag, List.filterMap_append, hact, compensationOf]

/-- The invariant holds for whatever `tryBody` yields: for the state inside
a returned success, and for the state captured by a thrown failure. -/
def ledgerInvOutcome (pp dbn : String) (cfg : DatabaseConfig) :
    Except (String × RunState) (RunState × String × String × String) → Prop
  | .ok res => ledgerInv pp dbn cfg res.1
  | .error e => ledgerInv pp dbn cfg e.2

theorem tryBody_ledgerInv {env : StepEnv} {data : GenerateWordPressData}
    {cfg : DatabaseConfig} {pp : String} {st0 : RunState}
    (hinv : ledgerInv pp data.databaseName cfg st0) :
    ledgerInvOutcome pp data.databaseName cfg (tryBody env data cfg pp st0) := by
  unfold tryBody
  cases h1 : copyStep env pp st0 with
  | error e =>
      rcases e with ⟨m, stF⟩
      obtain ⟨_, hrb, hc, _, _⟩ := copyStep_error_char h1
      simp only [stepThen_error, finishVhost_error, ledgerInvOutcome]
      exact ledgerInv_of_unchanged hinv hrb hc
  | ok st1 =>
  obtain ⟨_, _, _, hrb1, _, hc1, _, _⟩ := copyStep_ok_char h1
  have hinv1 := ledgerInv_copy hinv hrb1 hc1
  rw [stepThen_ok]
  cases h2 : configStep env st1 with
  | error e =>
      rcases e with ⟨m, stF⟩
      obtain ⟨_, hrb, hc, _, _⟩ := configStep_error_char h2
      simp only [stepThen_error, finishVhost_error, ledgerInvOutcome]
      exact ledgerInv_of_unchanged hinv1 hrb hc
  | ok st2 =>
  obtain ⟨_, _, _, hrb2, _, hc2, _, _⟩ := configStep_ok_char h2
  have hinv2 := ledgerInv_append_none hinv1 hrb2 hc2 rfl
  rw [stepThen_ok]
  cases h3 : databaseStep env cfg data.databaseName st2 with
  | error e =>
      rcases e with ⟨m, stF⟩
      obtain ⟨_, hrb, hc, _, _⟩ := databaseStep_error_char h3
      simp only [stepThen_error, finishVhost_error, ledgerInvOutcome]
      exact ledgerInv_of_unchanged hinv2 hrb hc
  | ok st3 =>
  obtain ⟨_, _, hrb3, _, hc3, _, _⟩ := databaseStep_ok_char h3
  have hinv3 := ledgerInv_createDb hinv2 hrb3 hc3
  rw [stepThen_ok]
  cases h4 : themesStepOpt env data st3 with
  | error e =>
      rcases e with ⟨m, stF⟩
      have h4' : themesStep env st3 = .error (m, stF) := by
        by_cases hth : jsTruthy data.themesPath = true
        · rw [← h4]; unfold themesStepOpt; rw [hth]; simp
        · have hth2 : jsTruthy data.themesPath = false := by simpa using hth
          unfold themesStepOpt at h4; rw [hth2] at h4; simp at h4
      obtain ⟨_, hrb, hc, _, _⟩ := themesStep_error_char h4'
      simp only [stepThen_error, finishVhost_error, ledgerInvOutcome]
      exact ledgerInv_of_unchanged hinv3 hrb hc
  | ok st4 =>
  have hinv4 : ledgerInv pp data.databaseName cfg st4 := by
    by_cases hth : jsTruthy data.themesPath = true
    · have h4' : themesStep env st3 = .ok st4 := by
        unfold themesStepOpt at h4; rw [hth] at h4; simpa using h4
      obtain ⟨_, _, hrb, _, hc, _, _⟩ := themesStep_ok_char h4'
      exact ledgerInv_append_none hinv3 hrb hc rfl
    · have hth2 : jsTruthy data.themesPath = false := by simpa using hth
      unfold themesStepOpt at h4; rw [hth2] at h4; simp at h4
      rw [← h4]
      exact hinv3
  rw [stepThen_ok]
  cases h5 : pluginsStepOpt env data st4 with
  | error e =>
      rcases e with ⟨m, stF⟩
      have h5' : pluginsStep env st4 = .error (m, stF) := by
        by_cases hpl : jsTruthy data.pluginsPath = true
        · rw [← h5]; unfold pluginsStepOpt; rw [hpl]; simp
        · have hpl2 : jsTruthy data.pluginsPath = false := by simpa using hpl
          unfold pluginsStepOpt at h5; rw [hpl2] at h5; simp at h5
      obtain ⟨_, hrb, hc, _, _⟩ := pluginsStep_error_char h5'
      simp only [stepThen_error, finishVhost_error, ledgerInvOutcome]
      exact ledgerInv_of_unchanged hinv4 hrb hc
  | ok st5 =>
  have hinv5 : ledgerInv pp data.databaseName cfg st5 := by
    by_cases hpl : jsTruthy data.pluginsPath = true
    · have h5' : pluginsStep env st4 = .ok st5 := by
        unfold pluginsStepOpt at h5; rw [hpl] at h5; simpa using h5
      obtain ⟨_, _, hrb, _, hc, _, _⟩ := pluginsStep_ok_char h5'
      exact ledgerInv_append_none hinv4 hrb hc rfl
    · have hpl2 : jsTruthy data.pluginsPath = false := by simpa using hpl
      unfold pluginsStepOpt at h5; rw [hpl2] at h5; simp at h5
      rw [← h5]
      exact hinv4
  rw [stepThen_ok]
  cases h6 : permissionsStep env st5 with
  | error e =>
      rcases e with ⟨m, stF⟩
      obtain ⟨_, hrb, hc, _, _⟩ := permissionsStep_error_char h6
      simp only [finishVhost_error, ledgerInvOutcome]
      exact ledgerInv_of_unchanged hinv5 hrb hc
  | ok st6 =>
  obtain ⟨_, _, hrb6, _, hc6, _, _⟩ := permissionsStep_ok_char h6
  have hinv6 := ledgerInv_append_none hinv5 hrb6 hc6 rfl
  obtain ⟨_, hrbv, _, hcv, _, _⟩ := vhostStep_char data pp st6
  rw [finishVhost_ok]
  simp only [ledgerInvOutcome]
  exact ledgerInv_append_none hinv6 hrbv hcv rfl


/-! ## Equation lemmas for `runPipelineSteps` and `generateWordPress` -/

theorem runPipelineSteps_eq_dup {env : StepEnv} {data : GenerateWordPressData}
    {cfg : DatabaseConfig} {rb1 : RollbackState} {w0 : World} {li2 : Nat}
    (hdup : pathExists w0 (pathJoin data.destinationPath data.projectName) = true) :
    runPipelineSteps env data cfg rb1 w0 li2 =
      { world := w0,
        result := { success := false, message := some (dupProjectMsg data.projectName) },
        rollback := rb1, driverCfg := cfg, shellRegexLastIndex := li2,
        stepsStarted := [], stepsCompleted := [], checksPerformed := 0,
        ledgerAtFailure := none, rollbackResult := none, rollbackTrace := [],
        statusUpdates := [] } := by
  simp only [runPipelineSteps]
  rw [if_pos hdup]

theorem runPipelineSteps_eq_ok {env : StepEnv} {data : GenerateWordPressData}
    {cfg : DatabaseConfig} {rb1 : RollbackState} {w0 : World} {li2 : Nat}
    {st : RunState} {vhost hosts serverName : String}
    (hdup : pathExists w0 (pathJoin data.destinationPath data.projectName) = false)
    (htb : tryBody env data cfg (pathJoin data.destinationPath data.projectName)
      ⟨w0, rb1, [], [], 0, []⟩ = .ok (st, vhost, hosts, serverName)) :
    runPipelineSteps env data cfg rb1 w0 li2 =
      { world := st.w,
        result := { success := true,
                    message := some "Projet WordPress généré avec succès!",
                    vhostConfig := some vhost, hostsEntry := some hosts,
                    serverName := some serverName },
        rollback := clearActions st.rb,
        driverCfg := cfg, shellRegexLastIndex := li2,
        stepsStarted := st.started, stepsCompleted := st.completed,
        checksPerformed := st.checks, ledgerAtFailure := none,
        rollbackResult := none, rollbackTrace := [],
        statusUpdates := st.status } := by
  simp only [runPipelineSteps]
  rw [if_neg (by simp [hdup]), htb]

theorem runPipelineSteps_eq_error {env : StepEnv} {data : GenerateWordPressData}
    {cfg : DatabaseConfig} {rb1 : RollbackState} {w0 : World} {li2 : Nat}
    {m : String} {stF : RunState}
    (hdup : pathExists w0 (pathJoin data.destinationPath data.projectName) = false)
    (htb : tryBody env data cfg (pathJoin data.destinationPath data.projectName)
      ⟨w0, rb1, [], [], 0, []⟩ = .error (m, stF)) :
    runPipelineSteps env data cfg rb1 w0 li2 =
      { world := (rollbackExecute env.home stF.w stF.rb).1,
        result := { success := false, message := some m },
        rollback := (rollbackExecute env.home stF.w stF.rb).2.1,
        driverCfg := cfg, shellRegexLastIndex := li2,
        stepsStarted := stF.started, stepsCompleted := stF.completed,
        checksPerformed := stF.checks,
        ledgerAtFailure := some stF.rb.actions,
        rollbackResult := some (rollbackExecute env.home stF.w stF.rb).2.2.1,
        rollbackTrace := (rollbackExecute env.home stF.w stF.rb).2.2.2,
        statusUpdates := stF.status ++
          [⟨"rollback", "Annulation des modifications...", some false⟩,
           ⟨"error", "Erreur: " ++ m, some false⟩] } := by
  simp only [runPipelineSteps]
  rw [if_neg (by simp [hdup]), htb]
  simp [pushStatus]

theorem runPipelineSteps_driverCfg (env : StepEnv) (data : GenerateWordPressData)
    (cfg : DatabaseConfig) (rb1 : RollbackState) (w0 : World) (li2 : Nat) :
    (runPipelineSteps env data cfg rb1 w0 li2).driverCfg = cfg := by
  simp only [runPipelineSteps]
  split
  · rfl
  · split <;> rfl

theorem generateWordPress_ok_inv {env : StepEnv} {data : GenerateWordPressData}
    {cfg0 : DatabaseConfig} {rb0 : RollbackState} {w0 : World} {li0 : Nat}
    {o : PipelineOutcome}
    (h : generateWordPress env data cfg0 rb0 w0 li0 = .ok o) :
    (o.stepsCompleted = [] ∧ o.stepsStarted = [] ∧ o.checksPerformed = 0 ∧
     o.ledgerAtFailure = none ∧ o.result.success = false) ∨
    (∃ cfg li2, o = runPipelineSteps env data cfg (clearActions rb0) w0 li2) := by
  simp only [generateWordPress] at h
  split at h
  · simp only [Except.ok.injEq] at h
    subst h
    exact Or.inl ⟨rfl, rfl, rfl, rfl, rfl⟩
  · split at h
    · simp only [Except.ok.injEq] at h
      subst h
      exact Or.inl ⟨rfl, rfl, rfl, rfl, rfl⟩
    · split at h
      · simp only [Except.ok.injEq] at h
        subst h
        exact Or.inl ⟨rfl, rfl, rfl, rfl, rfl⟩
      · split at h
        · exact absurd h (by simp)
        · simp only [Except.ok.injEq] at h
          subst h
          exact Or.inr ⟨_, _, rfl⟩

/-! ## Claim C3 -/

/-- C3: (1) while a rollback is in progress every `register*` call is a
no-op; (2) for any run, the ledger contents captured at the moment of a
fatal failure are exactly the compensations of the forward steps that
completed successfully — in particular the failed step itself never has an
action in the ledger. -/
theorem c3_ledger_completed_only :
    (∀ (st : RollbackState) (p n : String) (c : DatabaseConfig),
        st.isRollingBack = true →
        registerDirectoryCreation st p = st ∧
        registerDatabaseCreation st n c = st ∧
        registerFileCreation st p = st) ∧
    (∀ (env : StepEnv) (data : GenerateWordPressData) (cfg0 : DatabaseConfig)
        (rb0 : RollbackState) (w0 : World) (li0 : Nat) (o : PipelineOutcome)
        (l : List RollbackAction),
        rb0.isRollingBack = false →
        generateWordPress env data cfg0 rb0 w0 li0 = .ok o →
        o.ledgerAtFailure = some l →
        l = o.stepsCompleted.filterMap
          (compensationOf (pathJoin data.destinationPath data.projectName)
            data.databaseName o.driverCfg)) := by
  constructor
  · intro st p n c hflag
    refine ⟨?_, ?_, ?_⟩ <;>
      simp [registerDirectoryCreation, registerDatabaseCreation,
        registerFileCreation, hflag]
  · intro env data cfg0 rb0 w0 li0 o l hflag h hlf
    rcases generateWordPress_ok_inv h with ⟨_, _, _, hnone, _⟩ | ⟨cfg, li2, ho⟩
    · rw [hnone] at hlf
      cases hlf
    · subst ho
      rw [runPipelineSteps_driverCfg]
      by_cases hdup : pathExists w0 (pathJoin data.destinationPath data.projectName) = true
      · rw [runPipelineSteps_eq_dup hdup] at hlf
        cases hlf
      · have hdup2 : pathExists w0 (pathJoin data.destinationPath data.projectName) = false := by
          simpa using hdup
        cases htb : tryBody env data cfg (pathJoin data.destinationPath data.projectName)
            ⟨w0, clearActions rb0, [], [], 0, []⟩ with
        | ok res =>
            rcases res with ⟨st, vhost, hosts, sn⟩
            rw [runPipelineSteps_eq_ok hdup2 htb] at hlf
            cases hlf
        | error e =>
            rcases e with ⟨m, stF⟩
            rw [runPipelineSteps_eq_error hdup2 htb] at hlf ⊢
            simp only [Option.some.injEq] at hlf
            have hinv0 : ledgerInv (pathJoin data.destinationPath data.projectName)
                data.databaseName cfg ⟨w0, clearActions rb0, [], [], 0, []⟩ := by
              constructor
              · simp [clearActions, hflag]
              · simp [clearActions]
            have hout := @tryBody_ledgerInv env data cfg
              (pathJoin data.destinationPath data.projectName)
              ⟨w0, clearActions rb0, [], [], 0, []⟩ hinv0
            rw [htb] at hout
            simp only [ledgerInvOutcome] at hout
            rw [← hlf]
            exact hout.2

theorem c3_witness :
    registerDirectoryCreation ⟨[], true⟩ "/tmp/x" = ⟨[], true⟩ ∧
    [mkDirectoryAction "/tmp/proj/demo"] =
      demoRun.stepsCompleted.filterMap
        (compensationOf (pathJoin demoData.destinationPath demoData.projectName)
          demoData.databaseName demoRun.driverCfg) := by
  constructor
  · exact (c3_ledger_completed_only.1 ⟨[], true⟩ "/tmp/x" "n" demoCfg rfl).1
  · exact c3_ledger_completed_only.2 demoEnv demoData demoCfg ⟨[], false⟩ demoWorld 0
      demoRun [mkDirectoryAction "/tmp/proj/demo"] rfl (by rfl) (by decide)


/-! ## Claim C5: the DatabaseCreated action snapshots the config -/

/-- C5: when the CreateDatabase step succeeds, the action appended to the
ledger is `mkDatabaseAction dbn (mysqlGetConfig cfg)`: it carries the
database name and the by-value copy of the connection config read just
before creation.  A later `setConfig` (hypothesis `hset`) produces a new
driver config but the recorded action still carries the creation-time
snapshot, and executing that action runs `rollbackDatabase` against the
snapshotted config — not the driver's current one. -/
theorem c5_snapshot_config {env : StepEnv} {cfg newCfg cfg2 : DatabaseConfig}
    {dbn : String} {st0 st' : RunState} {li li2 : Nat}
    (hrb : st0.rb.isRollingBack = false)
    (h : databaseStep env cfg dbn st0 = .ok st')
    (_hset : mysqlSetConfig cfg newCfg li = .ok (cfg2, li2)) :
    st'.rb.actions = st0.rb.actions ++ [mkDatabaseAction dbn (mysqlGetConfig cfg)] ∧
    (mkDatabaseAction dbn (mysqlGetConfig cfg)).data.databaseName = some dbn ∧
    (mkDatabaseAction dbn (mysqlGetConfig cfg)).data.dbConfig = some cfg ∧
    (∀ (home : String) (w : World),
      executeAction home w (mkDatabaseAction dbn (mysqlGetConfig cfg)) =
        rollbackDatabase w (some dbn) (some cfg)) := by
  obtain ⟨_, _, hrb', _, _, _, _⟩ := databaseStep_ok_char h
  refine ⟨?_, rfl, rfl, ?_⟩
  · rw [hrb']
    simp [registerDatabaseCreation, hrb, mysqlGetConfig]
  · intro home w
    rfl

def c5NewCfg : DatabaseConfig := ⟨"127.0.0.1", 3307, "admin", "pw"⟩

def c5Start : RunState := ⟨probeWorld, ⟨[], false⟩, [], [], 0, []⟩

def c5After : RunState :=
  match databaseStep demoEnv demoCfg "demo_db" c5Start with
  | .ok st => st
  | .error _ => c5Start

theorem c5_snapshot_config_witness :
    c5After.rb.actions = [mkDatabaseAction "demo_db" (mysqlGetConfig demoCfg)] ∧
    (mkDatabaseAction "demo_db" (mysqlGetConfig demoCfg)).data.dbConfig = some demoCfg ∧
    executeAction "/home/user" probeWorld
        (mkDatabaseAction "demo_db" (mysqlGetConfig demoCfg)) =
      rollbackDatabase probeWorld (some "demo_db") (some demoCfg) := by
  have h := @c5_snapshot_config demoEnv demoCfg c5NewCfg c5NewCfg "demo_db"
    c5Start c5After 0 0 rfl (by rfl) (by rfl)
  exact ⟨by simpa using h.1, h.2.2.1, h.2.2.2 "/home/user" probeWorld⟩


/-! ## Claim C6: cancellation checks at step boundaries -/

/-- Every `checkCanceled` read performed so far observed `false`. -/
def noCancelSeen (env : StepEnv) (st : RunState) : Prop :=
  ∀ j, j < st.checks → env.cancelAt j = false

theorem noCancelSeen_step {env : StepEnv} {st st' : RunState}
    (h1 : st'.checks = st.checks + 1) (h2 : env.cancelAt st.checks = false)
    (hn : noCancelSeen env st) : noCancelSeen env st' := by
  intro j hj
  rw [h1] at hj
  rcases Nat.lt_succ_iff_lt_or_eq.mp hj with h | h
  · exact hn j h
  · rw [h]; exact h2

theorem noCancelSeen_of_checks_eq {env : StepEnv} {st st' : RunState}
    (h : st'.checks = st.checks) (hn : noCancelSeen env st) : noCancelSeen env st' := by
  intro j hj
  rw [h] at hj
  exact hn j hj

/-- What the step chain guarantees about the cancellation counter: a
successful pass performs one check per non-vhost step — none before the
vhost emission — and every performed check observed `false`. -/
def checksOutcome (env : StepEnv) (data : GenerateWordPressData) (st0 : RunState) :
    Except (String × RunState) (RunState × String × String × String) → Prop
  | .ok res =>
      res.1.checks = st0.checks + 4
        + (if jsTruthy data.themesPath then 1 else 0)
        + (if jsTruthy data.pluginsPath then 1 else 0) ∧
      (noCancelSeen env st0 → noCancelSeen env res.1)
  | .error _ => True

theorem tryBody_checks (env : StepEnv) (data : GenerateWordPressData)
    (cfg : DatabaseConfig) (pp : String) (st0 : RunState) :
    checksOutcome env data st0 (tryBody env data cfg pp st0) := by
  unfold tryBody
  cases h1 : copyStep env pp st0 with
  | error e => simp [stepThen_error, finishVhost_error, checksOutcome]
  | ok st1 =>
  obtain ⟨hcan1, _, _, _, _, _, hk1, _⟩ := copyStep_ok_char h1
  rw [stepThen_ok]
  cases h2 : configStep env st1 with
  | error e => simp [stepThen_error, finishVhost_error, checksOutcome]
  | ok st2 =>
  obtain ⟨hcan2, _, _, _, _, _, hk2, _⟩ := configStep_ok_char h2
  rw [stepThen_ok]
  cases h3 : databaseStep env cfg data.databaseName st2 with
  | error e => simp [stepThen_error, finishVhost_error, checksOutcome]
  | ok st3 =>
  obtain ⟨hcan3, _, _, _, _, hk3, _⟩ := databaseStep_ok_char h3
  rw [stepThen_ok]
  cases h4 : themesStepOpt env data st3 with
  | error e => simp [stepThen_error, finishVhost_error, checksOutcome]
  | ok st4 =>
  have hth4 : (st4.checks = st3.checks + (if jsTruthy data.themesPath then 1 else 0)) ∧
      (noCancelSeen env st3 → noCancelSeen env st4) := by
    by_cases hth : jsTruthy data.themesPath = true
    · have h4' : themesStep env st3 = .ok st4 := by
        unfold themesStepOpt at h4; rw [hth] at h4; simpa using h4
      obtain ⟨hcan, _, _, _, _, hk, _⟩ := themesStep_ok_char h4'
      exact ⟨by rw [hth]; simpa using hk, noCancelSeen_step hk hcan⟩
    · have hth2 : jsTruthy data.themesPath = false := by simpa using hth
      unfold themesStepOpt at h4; rw [hth2] at h4; simp at h4
      rw [← h4, hth2]
      exact ⟨by simp, fun hn => hn⟩
  rw [stepThen_ok]
  cases h5 : pluginsStepOpt env data st4 with
  | error e => simp [stepThen_error, finishVhost_error, checksOutcome]
  | ok st5 =>
  have hpl5 : (st5.checks = st4.checks + (if jsTruthy data.pluginsPath then 1 else 0)) ∧
      (noCancelSeen env st4 → noCancelSeen env st5) := by
    by_cases hpl : jsTruthy data.pluginsPath = true
    · have h5' : pluginsStep env st4 = .ok st5 := by
        unfold pluginsStepOpt at h5; rw [hpl] at h5; simpa using h5
      obtain ⟨hcan, _, _, _, _, hk, _⟩ := pluginsStep_ok_char h5'
      exact ⟨by rw [hpl]; simpa using hk, noCancelSeen_step hk hcan⟩
    · have hpl2 : jsTruthy data.pluginsPath = false := by simpa using hpl
      unfold pluginsStepOpt at h5; rw [hpl2] at h5; simp at h5
      rw [← h5, hpl2]
      exact ⟨by simp, fun hn => hn⟩
  rw [stepThen_ok]
  cases h6 : permissionsStep env st5 with
  | error e => simp [finishVhost_error, checksOutcome]
  | ok st6 =>
  obtain ⟨hcan6, _, _, _, _, hk6, _⟩ := permissionsStep_ok_char h6
  rw [finishVhost_ok]
  obtain ⟨_, _, _, _, hkv, _⟩ := vhostStep_char data pp st6
  constructor
  · rw [hkv, hk6, hpl5.1, hth4.1, hk3, hk2, hk1]
    omega
  · intro hn0
    refine noCancelSeen_of_checks_eq hkv ?_
    refine noCancelSeen_step hk6 hcan6 ?_
    refine hpl5.2 (hth4.2 ?_)
    refine noCancelSeen_step hk3 hcan3 ?_
    refine noCancelSeen_step hk2 hcan2 ?_
    exact noCancelSeen_step hk1 hcan1 hn0

theorem generateWordPress_valid_eq {env : StepEnv} {data : GenerateWordPressData}
    {cfg0 : DatabaseConfig} {rb0 : RollbackState} {w0 : World} {li0 : Nat}
    (hpv : (validateProjectName data.projectName).valid = true)
    (hdv : (validateDatabaseName data.databaseName).valid = true)
    (hpath : (validatePath data.destinationPath li0).1.valid = true)
    (hdbc : data.dbConfig = none) :
    generateWordPress env data cfg0 rb0 w0 li0 =
      .ok (runPipelineSteps env data cfg0 (clearActions rb0) w0
        (validatePath data.destinationPath li0).2) := by
  simp [generateWordPress, hpv, hdv, hpath, hdbc]

/-- A world in which the full demo run can succeed: destination parent
exists, no project directory, no database, server reachable. -/
def okWorld : World :=
  { dirs := ["/tmp/proj"], files := [], databases := [], dbReachable := fun _ => true }

/-- Cancellation requested after the fourth check (the one before
SetPermissions): monotone flag, true from read 4 on. -/
def c6Env : StepEnv := { demoEnv with cancelAt := fun k => decide (4 ≤ k) }

def c6Run : PipelineOutcome :=
  match generateWordPress c6Env demoData demoCfg ⟨[], false⟩ okWorld 0 with
  | .ok o => o
  | .error _ => fallbackOutcome

/-- C6 counterexample: a run with no themes/plugins in which cancellation
is requested between the SetPermissions check and the vhost emission
(`cancelAt k = (4 ≤ k)`, a monotone one-shot flag).  By the claim, a check
before EmitVhost would observe the cancellation and fail the pipeline; in
the code only four checks are performed (none before EmitVhost), EmitVhost
still runs and the pipeline returns success. -/
theorem c6_counterexample :
    c6Run.result.success = true ∧
    c6Run.checksPerformed = 4 ∧
    (c6Env.cancelAt 0 = false ∧ c6Env.cancelAt 1 = false ∧
     c6Env.cancelAt 2 = false ∧ c6Env.cancelAt 3 = false) ∧
    c6Env.cancelAt 4 = true ∧ c6Env.cancelAt 5 = true ∧
    c6Run.stepsStarted.contains .emitVhost = true := by
  refine ⟨by decide, by decide, ⟨by decide, by decide, by decide, by decide⟩,
    by decide, by decide, by decide⟩

/-- Interval version of `noCancelSeen_step`: one more `false` read extends
the range of reads known to be `false`. -/
theorem intervalFalse_step {env : StepEnv} {a : Nat} {st st' : RunState}
    (h1 : st'.checks = st.checks + 1) (h2 : env.cancelAt st.checks = false)
    (hp : ∀ j, a ≤ j → j < st.checks → env.cancelAt j = false) :
    ∀ j, a ≤ j → j < st'.checks → env.cancelAt j = false := by
  intro j hj1 hj2
  rw [h1] at hj2
  rcases Nat.lt_succ_iff_lt_or_eq.mp hj2 with h | h
  · exact hp j hj1 h
  · rw [h]; exact h2

/-- What the chain guarantees when it throws: at least one check was
performed, every read except possibly the last observed `false`, and if the
last read observed `true` then the thrown failure is the user-cancellation
message and the step guarded by that check never started (steps started
still equal steps completed). -/
def cancelOutcome (env : StepEnv) (st0 : RunState) :
    Except (String × RunState) (RunState × String × String × String) → Prop
  | .ok _ => True
  | .error e =>
      st0.checks < e.2.checks ∧
      (∀ j, st0.checks ≤ j → j + 1 < e.2.checks → env.cancelAt j = false) ∧
      (env.cancelAt (e.2.checks - 1) = true →
        e.1 = cancelErrMsg ∧ (st0.started = st0.completed → e.2.started = e.2.completed))

/-- The error triple of `cancelOutcome` when the failing step threw at its
cancellation check. -/
theorem cancelTriple_of_cancel {env : StepEnv} {st0 stk stF : RunState} {m : String}
    (hgt : st0.checks ≤ stk.checks)
    (hlow : ∀ j, st0.checks ≤ j → j < stk.checks → env.cancelAt j = false)
    (heq : st0.started = st0.completed → stk.started = stk.completed)
    (hkF : stF.checks = stk.checks + 1)
    (hcomp : stF.completed = stk.completed)
    (hm : m = cancelErrMsg)
    (hstarted : stF.started = stk.started) :
    st0.checks < stF.checks ∧
    (∀ j, st0.checks ≤ j → j + 1 < stF.checks → env.cancelAt j = false) ∧
    (env.cancelAt (stF.checks - 1) = true →
      m = cancelErrMsg ∧ (st0.started = st0.completed → stF.started = stF.completed)) := by
  refine ⟨by omega, ?_, ?_⟩
  · intro j hj1 hj2
    rw [hkF] at hj2
    exact hlow j hj1 (by omega)
  · intro _
    refine ⟨hm, fun hse => ?_⟩
    rw [hstarted, hcomp]
    exact heq hse

/-- The error triple of `cancelOutcome` when the failing step passed its
cancellation check (observed `false`) and then failed in its operation. -/
theorem cancelTriple_of_stepfail {env : StepEnv} {st0 stk stF : RunState} {m : String}
    (hgt : st0.checks ≤ stk.checks)
    (hlow : ∀ j, st0.checks ≤ j → j < stk.checks → env.cancelAt j = false)
    (hkF : stF.checks = stk.checks + 1)
    (hcanF : env.cancelAt stk.checks = false) :
    st0.checks < stF.checks ∧
    (∀ j, st0.checks ≤ j → j + 1 < stF.checks → env.cancelAt j = false) ∧
    (env.cancelAt (stF.checks - 1) = true →
      m = cancelErrMsg ∧ (st0.started = st0.completed → stF.started = stF.completed)) := by
  refine ⟨by omega, ?_, ?_⟩
  · intro j hj1 hj2
    rw [hkF] at hj2
    exact hlow j hj1 (by omega)
  · intro hlast
    have hlast2 : env.cancelAt stk.checks = true := by
      rw [hkF] at hlast
      simpa using hlast
    rw [hcanF] at hlast2
    cases hlast2

theorem tryBody_cancel (env : StepEnv) (data : GenerateWordPressData)
    (cfg : DatabaseConfig) (pp : String) (st0 : RunState) :
    cancelOutcome env st0 (tryBody env data cfg pp st0) := by
  have hgt0 : st0.checks ≤ st0.checks := Nat.le_refl _
  have hlow0 : ∀ j, st0.checks ≤ j → j < st0.checks → env.cancelAt j = false := by
    intro j hj1 hj2
    omega
  have heq0 : st0.started = st0.completed → st0.started = st0.completed := fun h => h
  unfold tryBody
  cases h1 : copyStep env pp st0 with
  | error e =>
      rcases e with ⟨m, stF⟩
      obtain ⟨_, _, hcF, hkF, hdisj⟩ := copyStep_error_char h1
      simp only [stepThen_error, finishVhost_error, cancelOutcome]
      rcases hdisj with ⟨hm, _, hstarted⟩ | ⟨_, hcanF, _, _⟩
      · exact cancelTriple_of_cancel hgt0 hlow0 heq0 hkF hcF hm hstarted
      · exact cancelTriple_of_stepfail hgt0 hlow0 hkF hcanF
  | ok st1 =>
  obtain ⟨hcan1, _, _, _, hs1, hc1, hk1, _⟩ := copyStep_ok_char h1
  have hgt1 : st0.checks ≤ st1.checks := by omega
  have hlow1 := intervalFalse_step hk1 hcan1 hlow0
  have heq1 : st0.started = st0.completed → st1.started = st1.completed := by
    intro hse
    rw [hs1, hc1, hse]
  rw [stepThen_ok]
  cases h2 : configStep env st1 with
  | error e =>
      rcases e with ⟨m, stF⟩
      obtain ⟨_, _, hcF, hkF, hdisj⟩ := configStep_error_char h2
      simp only [stepThen_error, finishVhost_error, cancelOutcome]
      rcases hdisj with ⟨hm, _, hstarted⟩ | ⟨_, hcanF, _, _⟩
      · exact cancelTriple_of_cancel hgt1 hlow1 heq1 hkF hcF hm hstarted
      · exact cancelTriple_of_stepfail hgt1 hlow1 hkF hcanF
  | ok st2 =>
  obtain ⟨hcan2, _, _, _, hs2, hc2, hk2, _⟩ := configStep_ok_char h2
  have hgt2 : st0.checks ≤ st2.checks := by omega
  have hlow2 := intervalFalse_step hk2 hcan2 hlow1
  have heq2 : st0.started = st0.completed → st2.started = st2.completed := by
    intro hse
    rw [hs2, hc2, heq1 hse]
  rw [stepThen_ok]
  cases h3 : databaseStep env cfg data.databaseName st2 with
  | error e =>
      rcases e with ⟨m, stF⟩
      obtain ⟨_, _, hcF, hkF, hdisj⟩ := databaseStep_error_char h3
      simp only [stepThen_error, finishVhost_error, cancelOutcome]
      rcases hdisj with ⟨hm, _, hstarted⟩ | ⟨hcanF, _, _⟩
      · exact cancelTriple_of_cancel hgt2 hlow2 heq2 hkF hcF hm hstarted
      · exact cancelTriple_of_stepfail hgt2 hlow2 hkF hcanF
  | ok st3 =>
  obtain ⟨hcan3, _, _, hs3, hc3, hk3, _⟩ := databaseStep_ok_char h3
  have hgt3 : st0.checks ≤ st3.checks := by omega
  have hlow3 := intervalFalse_step hk3 hcan3 hlow2
  have heq3 : st0.started = st0.completed → st3.started = st3.completed := by
    intro hse
    rw [hs3, hc3, heq2 hse]
  rw [stepThen_ok]
  cases h4 : themesStepOpt env data st3 with
  | error e =>
      rcases e with ⟨m, stF⟩
      have h4a : themesStep env st3 = .error (m, stF) := by
        by_cases hth : jsTruthy data.themesPath = true
        · rw [← h4]
          unfold themesStepOpt
          rw [hth]
          simp
        · have hth2 : jsTruthy data.themesPath = false := by simpa using hth
          unfold themesStepOpt at h4
          rw [hth2] at h4
          simp at h4
      obtain ⟨_, _, hcF, hstarted, hkF, hm, _⟩ := themesStep_error_char h4a
      simp only [stepThen_error, finishVhost_error, cancelOutcome]
      exact cancelTriple_of_cancel hgt3 hlow3 heq3 hkF hcF hm hstarted
  | ok st4 =>
  have h4step : (st4.checks = st3.checks + 1 ∧ env.cancelAt st3.checks = false ∧
      st4.started = st3.started ++ [.installThemes] ∧
      st4.completed = st3.completed ++ [.installThemes]) ∨ st4 = st3 := by
    by_cases hth : jsTruthy data.themesPath = true
    · have h4a : themesStep env st3 = .ok st4 := by
        unfold themesStepOpt at h4
        rw [hth] at h4
        simpa using h4
      obtain ⟨hcan, _, _, hs, hc, hk, _⟩ := themesStep_ok_char h4a
      exact Or.inl ⟨hk, hcan, hs, hc⟩
    · have hth2 : jsTruthy data.themesPath = false := by simpa using hth
      unfold themesStepOpt at h4
      rw [hth2] at h4
      simp at h4
      exact Or.inr h4.symm
  have hgt4 : st0.checks ≤ st4.checks := by
    rcases h4step with ⟨hk, _, _, _⟩ | he
    · omega
    · rw [he]; exact hgt3
  have hlow4 : ∀ j, st0.checks ≤ j → j < st4.checks → env.cancelAt j = false := by
    rcases h4step with ⟨hk, hcan, _, _⟩ | he
    · exact intervalFalse_step hk hcan hlow3
    · rw [he]; exact hlow3
  have heq4 : st0.started = st0.completed → st4.started = st4.completed := by
    rcases h4step with ⟨_, _, hs, hc⟩ | he
    · intro hse
      rw [hs, hc, heq3 hse]
    · rw [he]; exact heq3
  rw [stepThen_ok]
  cases h5 : pluginsStepOpt env data st4 with
  | error e =>
      rcases e with ⟨m, stF⟩
      have h5a : pluginsStep env st4 = .error (m, stF) := by
        by_cases hpl : jsTruthy data.pluginsPath = true
        · rw [← h5]
          unfold pluginsStepOpt
          rw [hpl]
          simp
        · have hpl2 : jsTruthy data.pluginsPath = false := by simpa using hpl
          unfold pluginsStepOpt at h5
          rw [hpl2] at h5
          simp at h5
      obtain ⟨_, _, hcF, hstarted, hkF, hm, _⟩ := pluginsStep_error_char h5a
      simp only [stepThen_error, finishVhost_error, cancelOutcome]
      exact cancelTriple_of_cancel hgt4 hlow4 heq4 hkF hcF hm hstarted
  | ok st5 =>
  have h5step : (st5.checks = st4.checks + 1 ∧ env.cancelAt st4.checks = false ∧
      st5.started = st4.started ++ [.installPlugins] ∧
      st5.completed = st4.completed ++ [.installPlugins]) ∨ st5 = st4 := by
    by_cases hpl : jsTruthy data.pluginsPath = true
    · have h5a : pluginsStep env st4 = .ok st5 := by
        unfold pluginsStepOpt at h5
        rw [hpl] at h5
        simpa using h5
      obtain ⟨hcan, _, _, hs, hc, hk, _⟩ := pluginsStep_ok_char h5a
      exact Or.inl ⟨hk, hcan, hs, hc⟩
    · have hpl2 : jsTruthy data.pluginsPath = false := by simpa using hpl
      unfold pluginsStepOpt at h5
      rw [hpl2] at h5
      simp at h5
      exact Or.inr h5.symm
  have hgt5 : st0.checks ≤ st5.checks := by
    rcases h5step with ⟨hk, _, _, _⟩ | he
    · omega
    · rw [he]; exact hgt4
  have hlow5 : ∀ j, st0.checks ≤ j → j < st5.checks → env.cancelAt j = false := by
    rcases h5step with ⟨hk, hcan, _, _⟩ | he
    · exact intervalFalse_step hk hcan hlow4
    · rw [he]; exact hlow4
  have heq5 : st0.started = st0.completed → st5.started = st5.completed := by
    rcases h5step with ⟨_, _, hs, hc⟩ | he
    · intro hse
      rw [hs, hc, heq4 hse]
    · rw [he]; exact heq4
  rw [stepThen_ok]
  cases h6 : permissionsStep env st5 with
  | error e =>
      rcases e with ⟨m, stF⟩
      obtain ⟨_, _, hcF, hstarted, hkF, hm, _⟩ := permissionsStep_error_char h6
      simp only [finishVhost_error, cancelOutcome]
      exact cancelTriple_of_cancel hgt5 hlow5 heq5 hkF hcF hm hstarted
  | ok st6 =>
  rw [finishVhost_ok]
  simp only [cancelOutcome]

/-- The demo run in the all-success environment (no cancellation). -/
def okRun : PipelineOutcome :=
  match generateWordPress demoEnv demoData demoCfg ⟨[], false⟩ okWorld 0 with
  | .ok o => o
  | .error _ => fallbackOutcome

/-- Environment in which the cancellation flag is set from the start. -/
def cancelEnv : StepEnv := { demoEnv with cancelAt := fun _ => true }

def cancelRun : PipelineOutcome :=
  match generateWordPress cancelEnv demoData demoCfg ⟨[], false⟩ okWorld 0 with
  | .ok o => o
  | .error _ => fallbackOutcome

/-- Environment in which cancellation is requested after the third check:
for the no-themes/no-plugins demo run the flag is observed set at the
fourth read (index 3), the one guarding SetPermissions, when the ledger
already holds the directory and database compensations. -/
def lateCancelEnv : StepEnv := { demoEnv with cancelAt := fun k => decide (3 ≤ k) }

def lateCancelRun : PipelineOutcome :=
  match generateWordPress lateCancelEnv demoData demoCfg ⟨[], false⟩ okWorld 0 with
  | .ok o => o
  | .error _ => fallbackOutcome

/-- C6 amended: the cancellation flag is checked before each of Copy,
Configure, CreateDatabase, InstallThemes, InstallPlugins and SetPermissions
(when present), but not before EmitVhost.  (1) A successful run performs
exactly `4 + themes? + plugins?` checks and every one of them observed
`false`; (2) whenever any performed check of a run observes the flag set,
the pipeline raises the user-cancellation failure (that check is
necessarily the last one performed), the step guarded by that check does
not start — the steps started are exactly the steps completed — and the
rollback of the ledger captured at the failure is executed over exactly
those actions in reverse, best-effort, exactly as for any other fatal
failure; (3) in particular, if the flag is already set at the first check
of a run that reaches the step phase, no step starts at all and the (empty)
ledger is rolled back. -/
theorem c6_amended_cancellation :
    (∀ (env : StepEnv) (data : GenerateWordPressData) (cfg0 : DatabaseConfig)
        (rb0 : RollbackState) (w0 : World) (li0 : Nat) (o : PipelineOutcome),
        generateWordPress env data cfg0 rb0 w0 li0 = .ok o →
        o.result.success = true →
        o.checksPerformed = 4 + (if jsTruthy data.themesPath then 1 else 0)
          + (if jsTruthy data.pluginsPath then 1 else 0) ∧
        (∀ j, j < o.checksPerformed → env.cancelAt j = false)) ∧
    (∀ (env : StepEnv) (data : GenerateWordPressData) (cfg0 : DatabaseConfig)
        (rb0 : RollbackState) (w0 : World) (li0 : Nat) (o : PipelineOutcome),
        generateWordPress env data cfg0 rb0 w0 li0 = .ok o →
        (∃ j, j < o.checksPerformed ∧ env.cancelAt j = true) →
        o.result.success = false ∧
        o.result.message = some cancelErrMsg ∧
        o.stepsStarted = o.stepsCompleted ∧
        (∃ l, o.ledgerAtFailure = some l ∧
          o.rollbackTrace = l.reverse ∧
          (∃ r, o.rollbackResult = some r ∧ r.success = r.errors.isEmpty))) ∧
    (∀ (env : StepEnv) (data : GenerateWordPressData) (cfg0 : DatabaseConfig)
        (rb0 : RollbackState) (w0 : World) (li0 : Nat) (o : PipelineOutcome),
        (validateProjectName data.projectName).valid = true →
        (validateDatabaseName data.databaseName).valid = true →
        (validatePath data.destinationPath li0).1.valid = true →
        data.dbConfig = none →
        pathExists w0 (pathJoin data.destinationPath data.projectName) = false →
        env.cancelAt 0 = true →
        generateWordPress env data cfg0 rb0 w0 li0 = .ok o →
        o.result.success = false ∧ o.result.message = some cancelErrMsg ∧
        o.stepsStarted = [] ∧ o.stepsCompleted = [] ∧
        o.ledgerAtFailure = some [] ∧ o.rollbackResult = some ⟨true, []⟩) := by
  refine ⟨?_, ?_, ?_⟩
  · intro env data cfg0 rb0 w0 li0 o h hsuc
    rcases generateWordPress_ok_inv h with ⟨_, _, _, _, hfail⟩ | ⟨cfg, li2, ho⟩
    · rw [hfail] at hsuc; cases hsuc
    · subst ho
      by_cases hdup : pathExists w0 (pathJoin data.destinationPath data.projectName) = true
      · rw [runPipelineSteps_eq_dup hdup] at hsuc ⊢
        cases hsuc
      · have hdup2 : pathExists w0 (pathJoin data.destinationPath data.projectName) = false := by
          simpa using hdup
        cases htb : tryBody env data cfg (pathJoin data.destinationPath data.projectName)
            ⟨w0, clearActions rb0, [], [], 0, []⟩ with
        | error e =>
            rcases e with ⟨m, stF⟩
            rw [runPipelineSteps_eq_error hdup2 htb] at hsuc
            cases hsuc
        | ok res =>
            rcases res with ⟨st, vhost, hosts, sn⟩
            have hch := tryBody_checks env data cfg
              (pathJoin data.destinationPath data.projectName)
              ⟨w0, clearActions rb0, [], [], 0, []⟩
            rw [htb] at hch
            simp only [checksOutcome] at hch
            rw [runPipelineSteps_eq_ok hdup2 htb]
            constructor
            · have := hch.1
              simpa using this
            · intro j hj
              have hn : noCancelSeen env st := hch.2 (by intro j hj; simp at hj)
              exact hn j (by simpa using hj)
  · intro env data cfg0 rb0 w0 li0 o h hex
    obtain ⟨j, hjlt, hjtrue⟩ := hex
    rcases generateWordPress_ok_inv h with ⟨_, _, hck, _, _⟩ | ⟨cfg, li2, ho⟩
    · rw [hck] at hjlt
      omega
    · subst ho
      by_cases hdup : pathExists w0 (pathJoin data.destinationPath data.projectName) = true
      · rw [runPipelineSteps_eq_dup hdup] at hjlt
        have hjlt2 : j < 0 := hjlt
        omega
      · have hdup2 : pathExists w0 (pathJoin data.destinationPath data.projectName) = false := by
          simpa using hdup
        cases htb : tryBody env data cfg (pathJoin data.destinationPath data.projectName)
            ⟨w0, clearActions rb0, [], [], 0, []⟩ with
        | ok res =>
            rcases res with ⟨st, vhost, hosts, sn⟩
            have hch := tryBody_checks env data cfg
              (pathJoin data.destinationPath data.projectName)
              ⟨w0, clearActions rb0, [], [], 0, []⟩
            rw [htb] at hch
            simp only [checksOutcome] at hch
            have hn : noCancelSeen env st := hch.2 (by intro j hj; simp at hj)
            rw [runPipelineSteps_eq_ok hdup2 htb] at hjlt
            have hjlt2 : j < st.checks := hjlt
            have hfalse := hn j hjlt2
            rw [hfalse] at hjtrue
            cases hjtrue
        | error e =>
            rcases e with ⟨m, stF⟩
            have hco := tryBody_cancel env data cfg
              (pathJoin data.destinationPath data.projectName)
              ⟨w0, clearActions rb0, [], [], 0, []⟩
            rw [htb] at hco
            simp only [cancelOutcome] at hco
            obtain ⟨hpos, hlow, hcancel⟩ := hco
            rw [runPipelineSteps_eq_error hdup2 htb] at hjlt ⊢
            have hjlt2 : j < stF.checks := hjlt
            have hjlast : j = stF.checks - 1 := by
              by_contra hne
              have hj1 : j + 1 < stF.checks := by omega
              have := hlow j (by omega) hj1
              rw [this] at hjtrue
              cases hjtrue
            have hlast : env.cancelAt (stF.checks - 1) = true := by
              rw [← hjlast]
              exact hjtrue
            obtain ⟨hm, hse⟩ := hcancel hlast
            refine ⟨rfl, by simp [hm], hse trivial,
              ⟨stF.rb.actions, rfl, ?_, ⟨_, rfl, ?_⟩⟩⟩
            · exact rollbackExecute_trace env.home stF.w stF.rb
            · exact rollbackExecute_success_iff env.home stF.w stF.rb
  · intro env data cfg0 rb0 w0 li0 o hpv hdv hpath hdbc hdup hcan0 h
    rw [generateWordPress_valid_eq hpv hdv hpath hdbc] at h
    simp only [Except.ok.injEq] at h
    subst h
    have hcopy : copyStep env (pathJoin data.destinationPath data.projectName)
        ⟨w0, clearActions rb0, [], [], 0, []⟩ =
        .error (cancelErrMsg, ⟨w0, clearActions rb0, [], [], 1, []⟩) := by
      unfold copyStep checkStep
      simp [hcan0]
    have htb : tryBody env data cfg0 (pathJoin data.destinationPath data.projectName)
        ⟨w0, clearActions rb0, [], [], 0, []⟩ =
        .error (cancelErrMsg, ⟨w0, clearActions rb0, [], [], 1, []⟩) := by
      unfold tryBody
      rw [hcopy]
      simp [stepThen_error, finishVhost_error]
    rw [runPipelineSteps_eq_error hdup htb]
    have hre : rollbackExecute env.home w0 (clearActions rb0) =
        (w0, clearActions rb0, ⟨true, []⟩, []) :=
      rollbackExecute_empty env.home w0 (clearActions rb0) rfl
    refine ⟨rfl, rfl, rfl, rfl, ?_, ?_⟩
    · simp [clearActions]
    · simp [hre]

theorem c6_amended_cancellation_witness :
    (okRun.checksPerformed = 4 + (if jsTruthy demoData.themesPath then 1 else 0)
        + (if jsTruthy demoData.pluginsPath then 1 else 0) ∧
      (∀ j, j < okRun.checksPerformed → demoEnv.cancelAt j = false)) ∧
    (lateCancelRun.result.success = false ∧
      lateCancelRun.result.message = some cancelErrMsg ∧
      lateCancelRun.stepsStarted = lateCancelRun.stepsCompleted ∧
      (∃ l, lateCancelRun.ledgerAtFailure = some l ∧
        lateCancelRun.rollbackTrace = l.reverse ∧
        (∃ r, lateCancelRun.rollbackResult = some r ∧
          r.success = r.errors.isEmpty))) ∧
    (cancelRun.result.success = false ∧ cancelRun.result.message = some cancelErrMsg ∧
      cancelRun.stepsStarted = [] ∧ cancelRun.stepsCompleted = [] ∧
      cancelRun.ledgerAtFailure = some [] ∧ cancelRun.rollbackResult = some ⟨true, []⟩) := by
  refine ⟨?_, ?_, ?_⟩
  · exact c6_amended_cancellation.1 demoEnv demoData demoCfg ⟨[], false⟩ okWorld 0 okRun
      (by rfl) (by decide)
  · exact c6_amended_cancellation.2.1 lateCancelEnv demoData demoCfg ⟨[], false⟩ okWorld 0
      lateCancelRun (by rfl) ⟨3, by decide, by decide⟩
  · exact c6_amended_cancellation.2.2 cancelEnv demoData demoCfg ⟨[], false⟩ okWorld 0 cancelRun
      (by decide) (by decide) (by decide) rfl (by decide) rfl (by rfl)

/-! ## Claim C7: soft failures do not abort the run -/

theorem mysqlCreateDatabase_ok {cfg : DatabaseConfig} {w : World} {n : String}
    (hv : (validateDatabaseName n).valid = true)
    (hr : w.dbReachable cfg = true)
    (hn : w.databases.contains n = false) :
    mysqlCreateDatabase cfg w n =
      .ok ({ w with databases := n :: w.databases },
        { success := true, databaseName := some n }) := by
  have hn2 : ¬ (n ∈ w.databases) := by simpa using hn
  unfold mysqlCreateDatabase
  simp [hv, hr, hn2]

/-- C7: in a run whose fatal steps all succeed, a permissions failure
(`permsSuccess = false`) and a themes batch containing a failed archive do
not abort the pipeline: no rollback happens, the later steps (including
EmitVhost) still run, the overall result is `success := true`, and both
failures are surfaced in their steps' status messages. -/
theorem c7_soft_failures_nonfatal
    (env : StepEnv) (data : GenerateWordPressData) (cfg0 : DatabaseConfig)
    (rb0 : RollbackState) (w0 : World) (li0 : Nat) (o : PipelineOutcome)
    (outcomes : List Bool)
    (hpv : (validateProjectName data.projectName).valid = true)
    (hdv : (validateDatabaseName data.databaseName).valid = true)
    (hpath : (validatePath data.destinationPath li0).1.valid = true)
    (hdbc : data.dbConfig = none)
    (hdup : pathExists w0 (pathJoin data.destinationPath data.projectName) = false)
    (hnc : ∀ j, env.cancelAt j = false)
    (hcopy : env.copyOk = true)
    (hconfig : env.configOk = true)
    (hreach : w0.dbReachable cfg0 = true)
    (hdbabs : w0.databases.contains data.databaseName = false)
    (hthemes : env.themesOutcome = .ok (extractBatchResult "thème" outcomes))
    (_hfailone : outcomes.contains false = true)
    (hthPresent : jsTruthy data.themesPath = true)
    (hperm : env.permsSuccess = false)
    (h : generateWordPress env data cfg0 rb0 w0 li0 = .ok o) :
    o.result.success = true ∧
    o.ledgerAtFailure = none ∧ o.rollbackResult = none ∧
    o.stepsStarted.contains .setPermissions = true ∧
    o.stepsStarted.contains .emitVhost = true ∧
    (⟨"themes", (extractBatchResult "thème" outcomes).message.getD "",
      some (extractBatchResult "thème" outcomes).success⟩ : StatusUpdate) ∈ o.statusUpdates ∧
    (⟨"permissions", jsOrElse env.permsMsg "Permissions configurées.",
      some false⟩ : StatusUpdate) ∈ o.statusUpdates := by
  rw [generateWordPress_valid_eq hpv hdv hpath hdbc] at h
  simp only [Except.ok.injEq] at h
  subst h
  cases hc1 : copyStep env (pathJoin data.destinationPath data.projectName)
      ⟨w0, clearActions rb0, [], [], 0, []⟩ with
  | error e =>
      rcases e with ⟨m, stF⟩
      obtain ⟨_, _, _, _, hdisj⟩ := copyStep_error_char hc1
      rcases hdisj with ⟨_, hcanc, _⟩ | ⟨_, _, hcopyF, _⟩
      · simp [hnc] at hcanc
      · rw [hcopy] at hcopyF; cases hcopyF
  | ok st1 =>
  obtain ⟨_, _, hw1, _, hstart1, _, _, ⟨us1, hst1⟩⟩ := copyStep_ok_char hc1
  cases hc2 : configStep env st1 with
  | error e =>
      rcases e with ⟨m, stF⟩
      obtain ⟨_, _, _, _, hdisj⟩ := configStep_error_char hc2
      rcases hdisj with ⟨_, hcanc, _⟩ | ⟨_, _, hconfF, _⟩
      · simp [hnc] at hcanc
      · rw [hconfig] at hconfF; cases hconfF
  | ok st2 =>
  obtain ⟨_, _, hw2, _, hstart2, _, _, ⟨us2, hst2⟩⟩ := configStep_ok_char hc2
  have hw2' : st2.w.dbReachable = w0.dbReachable ∧ st2.w.databases = w0.databases := by
    rw [hw2, hw1]
    exact ⟨rfl, rfl⟩
  cases hc3 : databaseStep env cfg0 data.databaseName st2 with
  | error e =>
      rcases e with ⟨m, stF⟩
      obtain ⟨_, _, _, _, hdisj⟩ := databaseStep_error_char hc3
      rcases hdisj with ⟨_, hcanc, _⟩ | ⟨_, hdberr, _⟩
      · simp [hnc] at hcanc
      · rw [mysqlCreateDatabase_ok hdv (by rw [hw2'.1]; exact hreach)
          (by rw [hw2'.2]; exact hdbabs)] at hdberr
        cases hdberr
  | ok st3 =>
  obtain ⟨_, _, _, hstart3, _, _, ⟨us3, hst3⟩⟩ := databaseStep_ok_char hc3
  cases hc4 : themesStepOpt env data st3 with
  | error e =>
      rcases e with ⟨m, stF⟩
      have h4' : themesStep env st3 = .error (m, stF) := by
        unfold themesStepOpt at hc4; rw [hthPresent] at hc4; simpa using hc4
      obtain ⟨_, _, _, _, _, _, hcanc⟩ := themesStep_error_char h4'
      simp [hnc] at hcanc
  | ok st4 =>
  have h4' : themesStep env st3 = .ok st4 := by
    unfold themesStepOpt at hc4; rw [hthPresent] at hc4; simpa using hc4
  obtain ⟨_, _, _, hstart4, _, _, hst4⟩ := themesStep_ok_char h4'
  have hthStatus : themesFinalStatus env =
      ⟨"themes", (extractBatchResult "thème" outcomes).message.getD "",
        some (extractBatchResult "thème" outcomes).success⟩ := by
    simp [themesFinalStatus, hthemes]
  cases hc5 : pluginsStepOpt env data st4 with
  | error e =>
      rcases e with ⟨m, stF⟩
      by_cases hpl : jsTruthy data.pluginsPath = true
      · have h5' : pluginsStep env st4 = .error (m, stF) := by
          unfold pluginsStepOpt at hc5; rw [hpl] at hc5; simpa using hc5
        obtain ⟨_, _, _, _, _, _, hcanc⟩ := pluginsStep_error_char h5'
        simp [hnc] at hcanc
      · have hpl2 : jsTruthy data.pluginsPath = false := by simpa using hpl
        unfold pluginsStepOpt at hc5; rw [hpl2] at hc5; simp at hc5
  | ok st5 =>
  have hst5s : (∃ us, st5.status = st4.status ++ us) ∧
      (∃ ts, st5.started = st4.started ++ ts) := by
    by_cases hpl : jsTruthy data.pluginsPath = true
    · have h5' : pluginsStep env st4 = .ok st5 := by
        unfold pluginsStepOpt at hc5; rw [hpl] at hc5; simpa using hc5
      obtain ⟨_, _, _, hstart5, _, _, hstat5⟩ := pluginsStep_ok_char h5'
      exact ⟨⟨_, hstat5⟩, ⟨_, hstart5⟩⟩
    · have hpl2 : jsTruthy data.pluginsPath = false := by simpa using hpl
      unfold pluginsStepOpt at hc5; rw [hpl2] at hc5; simp at hc5
      rw [← hc5]
      exact ⟨⟨[], by simp⟩, ⟨[], by simp⟩⟩
  cases hc6 : permissionsStep env st5 with
  | error e =>
      rcases e with ⟨m, stF⟩
      obtain ⟨_, _, _, _, _, _, hcanc⟩ := permissionsStep_error_char hc6
      simp [hnc] at hcanc
  | ok st6 =>
  obtain ⟨_, _, _, hstart6, _, _, hstat6⟩ := permissionsStep_ok_char hc6
  have htb : tryBody env data cfg0 (pathJoin data.destinationPath data.projectName)
      ⟨w0, clearActions rb0, [], [], 0, []⟩ =
      .ok (vhostStep data (pathJoin data.destinationPath data.projectName) st6) := by
    unfold tryBody
    rw [hc1, stepThen_ok, hc2, stepThen_ok, hc3, stepThen_ok, hc4, stepThen_ok,
      hc5, stepThen_ok, hc6, finishVhost_ok]
  rw [runPipelineSteps_eq_ok hdup htb]
  obtain ⟨us5, hstat5⟩ := hst5s.1
  refine ⟨rfl, rfl, rfl, ?_, ?_, ?_, ?_⟩
  · simp only [vhostStep, markCompleted, markStarted]
    rw [hstart6]
    simp
  · simp only [vhostStep, markCompleted, markStarted]
    simp
  · simp only [vhostStep, markCompleted, markStarted]
    rw [hstat6, hstat5, hst4, hthStatus]
    simp
  · simp only [vhostStep, markCompleted, markStarted]
    rw [hstat6]
    simp
    exact Or.inr hperm


def c7Env : StepEnv :=
  { demoEnv with
    themesOutcome := .ok (extractBatchResult "thème" [true, false]),
    permsSuccess := false,
    permsMsg := some "Erreur lors de la configuration des permissions: chmod failed" }

def c7Data : GenerateWordPressData := { demoData with themesPath := some "/tmp/themes" }

def c7Run : PipelineOutcome :=
  match generateWordPress c7Env c7Data demoCfg ⟨[], false⟩ okWorld 0 with
  | .ok o => o
  | .error _ => fallbackOutcome

theorem c7_soft_failures_nonfatal_witness :
    c7Run.result.success = true ∧
    c7Run.ledgerAtFailure = none ∧ c7Run.rollbackResult = none ∧
    c7Run.stepsStarted.contains .setPermissions = true ∧
    c7Run.stepsStarted.contains .emitVhost = true ∧
    (⟨"themes", (extractBatchResult "thème" [true, false]).message.getD "",
      some (extractBatchResult "thème" [true, false]).success⟩ : StatusUpdate) ∈
      c7Run.statusUpdates ∧
    (⟨"permissions", jsOrElse c7Env.permsMsg "Permissions configurées.",
      some false⟩ : StatusUpdate) ∈ c7Run.statusUpdates := by
  exact c7_soft_failures_nonfatal c7Env c7Data demoCfg ⟨[], false⟩ okWorld 0 c7Run
    [true, false] (by decide) (by decide) (by decide) rfl (by decide)
    (fun j => rfl) rfl rfl rfl (by decide) rfl (by decide) (by decide) rfl (by rfl)

end WpLocal
